import Mathlib

/-!
Shallow embedding of the explicit finite-difference engines of the repository
(src/wave_billiard.c, src/schrodinger.c, src/wave_3d.c), together with proofs
about them.

Conventions of the embedding:
* C `double` arithmetic is modelled by exact field arithmetic (a generic
  `Field K`, instantiated at `ℚ` for concrete evaluations and at `ℝ` where
  square roots and transcendental functions occur).
* a 2D array (`double *phi[NX]` or the flat `double phi[NX*NY]` with index
  `i*NY+j`) is modelled as a function `ℕ → ℕ → K`; the mask array
  `short int *xy_in[NX]` as `ℕ → ℕ → Bool` (the sources only test it for
  zero / nonzero in the routines treated here).
* compile-time configuration of the treated routines: `FLOOR 0` (no debug
  clamp), `TWOSPEEDS 0`, `OSCILLATE_LEFT 0`; the corresponding dead branches
  are not modelled.  Physical constants (`courant2`, `KAPPA`, `GAMMA`,
  `intstep`, ...) are parameters of the definitions.
* order-sensitive loops (the in-place update of `wave_billiard.c`) are
  modelled as sequential folds in the C iteration order; accumulation loops
  whose result is order-independent in exact arithmetic (`compute_variance`,
  `renormalise_field`) are modelled by sums over the corresponding index set.
-/

/-- A 2D buffer of field values, indexed `i` (x direction), `j` (y direction). -/
def Buf (K : Type*) : Type _ := ℕ → ℕ → K

/-- Pointwise update of a buffer at one cell, modelling `phi[i][j] = v`. -/
def upd {K : Type*} (f : Buf K) (i j : ℕ) (v : K) : Buf K :=
  fun a b => if a = i ∧ b = j then v else f a b

/-- The C periodic increment `iplus = (i+1) % NX` (nonnegative ints, so C's
truncated `%` agrees with `Nat.mod`). -/
def wrapInc (i n : ℕ) : ℕ := (i + 1) % n

/-- The C periodic decrement `iminus = (i-1) % NX; if (iminus < 0) iminus += NX;`
on `int` values, using C's truncated remainder (`Int.tmod`). -/
def wrapDec (i n : ℕ) : ℕ :=
  let m : ℤ := Int.tmod ((i : ℤ) - 1) (n : ℤ)
  (if m < 0 then m + (n : ℤ) else m).toNat

/-- The C clamped increment `iplus = (i+1); if (iplus == NX) iplus = NX-1;`. -/
def clampInc (i n : ℕ) : ℕ := if i + 1 = n then n - 1 else i + 1

/-- The C clamped decrement `iminus = (i-1); if (iminus == -1) iminus = 0;`
(the `int` value `i-1` is `-1` exactly when `i = 0`). -/
def clampDec (i : ℕ) : ℕ := if i = 0 then 0 else i - 1

/-- Boundary-condition policy selector (`B_COND`, values from `global_pdes.c`). -/
inductive BCond : Type
  | dirichlet
  | periodic
  | absorbing
  | vper_habs
deriving DecidableEq

namespace WaveBilliard

variable {K : Type*} [Field K]

/-- One cell of the in-place update of `evolve_wave` (src/wave_billiard.c,
lines 227-258): if the cell is in the domain, compute the periodic-wrap
Laplacian from the *current* contents of `phi`, overwrite `phi[i][j]` and
`psi[i][j]`; otherwise leave the state alone.  `FLOOR` is 0, so there is no
clamping branch. -/
def evolveCell (NX NY : ℕ) (courant2 kappa gamma : K) (xy_in : ℕ → ℕ → Bool)
    (st : Buf K × Buf K) (i j : ℕ) : Buf K × Buf K :=
  if xy_in i j then
    let phi := st.1
    let psi := st.2
    let iplus := wrapInc i NX
    let iminus := wrapDec i NX
    let jplus := wrapInc j NY
    let jminus := wrapDec j NY
    let delta := phi iplus j + phi iminus j + phi i jplus + phi i jminus - 4 * phi i j
    let x := phi i j
    let y := psi i j
    (upd phi i j (-y + 2 * x + courant2 * delta - kappa * x - gamma * (x - y)),
     upd psi i j x)
  else st

/-- `evolve_wave` of src/wave_billiard.c: the doubly nested loop
`for (i=0; i<NX; i++) for (j=0; j<NY; j++)` applying `evolveCell` in place,
in row-major order.  (The source runs the outer loop under
`#pragma omp parallel for`; the model is the sequential execution order.) -/
def evolve_wave (NX NY : ℕ) (courant2 kappa gamma : K) (xy_in : ℕ → ℕ → Bool)
    (phi psi : Buf K) : Buf K × Buf K :=
  (List.range NX).foldl
    (fun st i =>
      (List.range NY).foldl (fun st2 j => evolveCell NX NY courant2 kappa gamma xy_in st2 i j) st)
    (phi, psi)

/-- The aliasing-free two-phase formulation of the same step, following the
spec's words (§4.5: "read entirely from an input buffer, write entirely to an
output buffer"): every output cell is computed from the pre-step `phi`/`psi`
only. -/
def evolve_wave_twophase (NX NY : ℕ) (courant2 kappa gamma : K) (xy_in : ℕ → ℕ → Bool)
    (phi psi : Buf K) : Buf K × Buf K :=
  (fun i j =>
    if i < NX ∧ j < NY ∧ xy_in i j then
      (let delta := phi (wrapInc i NX) j + phi (wrapDec i NX) j + phi i (wrapInc j NY) + phi i (wrapDec j NY) - 4 * phi i j
       let x := phi i j
       let y := psi i j;
       -y + 2 * x + courant2 * delta - kappa * x - gamma * (x - y))
    else phi i j,
   fun i j => if i < NX ∧ j < NY ∧ xy_in i j then phi i j else psi i j)

/-- `n` repetitions of `evolve_wave` (the caller's
`for (j=0; j<NVID; j++) evolve_wave(phi, psi, xy_in);`). -/
def evolve_wave_iter (NX NY : ℕ) (courant2 kappa gamma : K) (xy_in : ℕ → ℕ → Bool)
    (st : Buf K × Buf K) : ℕ → Buf K × Buf K
  | 0 => st
  | n + 1 =>
      let st' := evolve_wave_iter NX NY courant2 kappa gamma xy_in st n
      evolve_wave NX NY courant2 kappa gamma xy_in st'.1 st'.2

/-- `compute_variance` of src/wave_billiard.c (lines 265-283): sum of
`phi[i][j]*phi[i][j]` and count over the loops `for (i=1; i<NX; i++)
for (j=1; j<NY; j++)` restricted to `xy_in[i][j]`, with `if (n==0) n=1;`.
The order-independent accumulation is modelled as a sum over the index set
`Ico 1 NX ×ˢ Ico 1 NY`. -/
def compute_variance (NX NY : ℕ) (phi : Buf K) (xy_in : ℕ → ℕ → Bool) : K :=
  let s := (Finset.Ico 1 NX ×ˢ Finset.Ico 1 NY).filter (fun ij => xy_in ij.1 ij.2)
  let n := s.card
  (∑ ij ∈ s, phi ij.1 ij.2 * phi ij.1 ij.2) / (if n = 0 then (1 : K) else (n : K))

/-- The aggregate that claim C4 describes, following the spec's words
(§4.6: "sum of squared-magnitude over all inside cells", including the first
row and first column, "divided by the count of inside cells (count floored
to 1)"), for the wave field (`φ²` only). -/
def aggregate_claimed (NX NY : ℕ) (phi : Buf K) (xy_in : ℕ → ℕ → Bool) : K :=
  let s := (Finset.range NX ×ˢ Finset.range NY).filter (fun ij => xy_in ij.1 ij.2)
  let n := s.card
  (∑ ij ∈ s, phi ij.1 ij.2 * phi ij.1 ij.2) / (if n = 0 then (1 : K) else (n : K))

end WaveBilliard

/-- The physical rectangle of the grid (`XMIN`, `XMAX`, `YMIN`, `YMAX`). -/
structure GridSpec : Type where
  xmin : ℝ
  xmax : ℝ
  ymin : ℝ
  ymax : ℝ

/-- Modelled from the spec: `ij_to_xy` (the Grid/Coordinate Mapper) lives in
`sub_wave.c`, which is not among the sources; the spec (§3, §4.1) describes it
as the affine map from lattice indices to physical coordinates over the fixed
rectangle. -/
noncomputable def ij_to_xy (g : GridSpec) (NX NY : ℕ) (i j : ℕ) : ℝ × ℝ :=
  (g.xmin + (g.xmax - g.xmin) * i / NX, g.ymin + (g.ymax - g.ymin) * j / NY)

namespace WaveBilliard

/-- `init_wave` of src/wave_billiard.c (lines 146-163): for every cell of the
grid, set the mask from the membership predicate (`xy_in_billiard`, a
collaborator from `sub_wave.c`, taken as a parameter `pred`), write the
classical pulse `0.2*exp(-dist2/0.001)*cos(-sqrt(dist2)/0.01)` into `phi`
(note: into every cell, with no mask test), and zero `psi`. -/
noncomputable def init_wave (g : GridSpec) (NX NY : ℕ) (x y : ℝ)
    (pred : ℝ → ℝ → Bool) : Buf ℝ × Buf ℝ × (ℕ → ℕ → Bool) :=
  (fun i j =>
    let c := ij_to_xy g NX NY i j
    let dist2 := (c.1 - x) * (c.1 - x) + (c.2 - y) * (c.2 - y);
    0.2 * Real.exp (-dist2 / 0.001) * Real.cos (-(Real.sqrt dist2) / 0.01),
   fun _ _ => 0,
   fun i j =>
    let c := ij_to_xy g NX NY i j
    pred c.1 c.2)

/-- `add_drop_to_wave` of src/wave_billiard.c (lines 165-179): adds
`0.2*factor*exp(-dist2/0.001)*cos(-sqrt(dist2)/0.01)` to `phi` at every cell
(the function takes no mask at all); `psi` is untouched. -/
noncomputable def add_drop_to_wave (g : GridSpec) (NX NY : ℕ) (factor x y : ℝ)
    (phi psi : Buf ℝ) : Buf ℝ × Buf ℝ :=
  (fun i j =>
    let c := ij_to_xy g NX NY i j
    let dist2 := (c.1 - x) * (c.1 - x) + (c.2 - y) * (c.2 - y)
    phi i j + 0.2 * factor * Real.exp (-dist2 / 0.001) * Real.cos (-(Real.sqrt dist2) / 0.01),
   psi)

end WaveBilliard

namespace Schrodinger

variable {K : Type*} [Field K]

/-- Neighbor index in the increasing direction, per boundary policy
(src/schrodinger.c lines 266-282): `BC_DIRICHLET` and `BC_ABSORBING` clamp,
`BC_PERIODIC` wraps.  (For any other policy the C code leaves the index
variables uninitialized — undefined behavior; the model arbitrarily clamps,
and no claim depends on that case.) -/
def nbPlus (bc : BCond) (n i : ℕ) : ℕ :=
  if bc = BCond.periodic then wrapInc i n else clampInc i n

/-- Neighbor index in the decreasing direction, per boundary policy; see
`Schrodinger.nbPlus`. -/
def nbMinus (bc : BCond) (n i : ℕ) : ℕ :=
  if bc = BCond.periodic then wrapDec i n else clampDec i

/-- The per-cell body of `evolve_wave_half` (src/schrodinger.c lines 263-339)
for an in-domain cell: the pair (new phi, new psi) computed from the input
buffers only.  `FLOOR` is 0, so there is no clamping branch. -/
def evolveCell (NX NY : ℕ) (bc : BCond) (intstep intstep1 : K)
    (phi_in psi_in : Buf K) (i j : ℕ) : K × K :=
  let iplus := nbPlus bc NX i
  let iminus := nbMinus bc NX i
  let jplus := nbPlus bc NY j
  let jminus := nbMinus bc NY j
  let delta1 := phi_in iplus j + phi_in iminus j + phi_in i jplus + phi_in i jminus - 4 * phi_in i j
  let delta2 := psi_in iplus j + psi_in iminus j + psi_in i jplus + psi_in i jminus - 4 * psi_in i j
  let x := phi_in i j
  let y := psi_in i j;
  if bc ≠ BCond.absorbing then
    (x - intstep * delta2, y + intstep * delta1)
  else if 0 < i ∧ i < NX - 1 ∧ 0 < j ∧ j < NY - 1 then
    (x - intstep * delta2, y + intstep * delta1)
  else if i = NX - 1 then
    (x - intstep1 * (y - psi_in (i - 1) j), y + intstep1 * (x - phi_in (i - 1) j))
  else if j = NY - 1 then
    (x - intstep1 * (y - psi_in i (j - 1)), y + intstep1 * (x - phi_in i (j - 1)))
  else if i = 0 then
    (x - intstep1 * (y - psi_in 1 j), y + intstep1 * (x - phi_in 1 j))
  else
    (x - intstep1 * (y - psi_in i 1), y + intstep1 * (x - phi_in i 1))

/-- `evolve_wave_half` of src/schrodinger.c (lines 252-343): reads `phi_in`,
`psi_in` only, writes each in-domain cell of the output buffers; cells not
written keep the previous contents of the output buffers. -/
def evolve_wave_half (NX NY : ℕ) (bc : BCond) (intstep intstep1 : K)
    (xy_in : ℕ → ℕ → Bool) (phi_in psi_in phi_out psi_out : Buf K) : Buf K × Buf K :=
  (fun i j =>
    if i < NX ∧ j < NY ∧ xy_in i j then
      (evolveCell NX NY bc intstep intstep1 phi_in psi_in i j).1
    else phi_out i j,
   fun i j =>
    if i < NX ∧ j < NY ∧ xy_in i j then
      (evolveCell NX NY bc intstep intstep1 phi_in psi_in i j).2
    else psi_out i j)

/-- `evolve_wave` of src/schrodinger.c (lines 345-351): two half-steps, the
first from the primary pair into the scratch pair, the second from the scratch
pair back into the primary pair.  The result is (new primary pair, new scratch
pair). -/
def evolve_wave (NX NY : ℕ) (bc : BCond) (intstep intstep1 : K)
    (xy_in : ℕ → ℕ → Bool) (phi psi phi_tmp psi_tmp : Buf K) :
    (Buf K × Buf K) × (Buf K × Buf K) :=
  let t := evolve_wave_half NX NY bc intstep intstep1 xy_in phi psi phi_tmp psi_tmp
  (evolve_wave_half NX NY bc intstep intstep1 xy_in t.1 t.2 phi psi, t)

/-- `n` repetitions of `evolve_wave` threading all four buffers (the caller's
`for (j=0; j<NVID; j++) evolve_wave(phi, psi, phi_tmp, psi_tmp, xy_in);`). -/
def evolve_wave_iter (NX NY : ℕ) (bc : BCond) (intstep intstep1 : K)
    (xy_in : ℕ → ℕ → Bool) (st : (Buf K × Buf K) × (Buf K × Buf K)) :
    ℕ → (Buf K × Buf K) × (Buf K × Buf K)
  | 0 => st
  | n + 1 =>
      let st' := evolve_wave_iter NX NY bc intstep intstep1 xy_in st n
      evolve_wave NX NY bc intstep intstep1 xy_in st'.1.1 st'.1.2 st'.2.1 st'.2.2

/-- `compute_variance` of src/schrodinger.c (lines 354-373): sum of
`phi[i][j]*phi[i][j] + psi[i][j]*psi[i][j]` and count over the loops
`for (i=1; i<NX; i++) for (j=1; j<NY; j++)` restricted to `xy_in[i][j]`,
with `if (n==0) n=1;`.  The order-independent accumulation is modelled as a
sum over the index set `Ico 1 NX ×ˢ Ico 1 NY`. -/
def compute_variance (NX NY : ℕ) (phi psi : Buf K) (xy_in : ℕ → ℕ → Bool) : K :=
  let s := (Finset.Ico 1 NX ×ˢ Finset.Ico 1 NY).filter (fun ij => xy_in ij.1 ij.2)
  let n := s.card
  (∑ ij ∈ s, (phi ij.1 ij.2 * phi ij.1 ij.2 + psi ij.1 ij.2 * psi ij.1 ij.2)) /
    (if n = 0 then (1 : K) else (n : K))

/-- The aggregate that claim C4 describes, following the spec's words (§4.6):
sum of `φ²+ψ²` over **all** inside cells — including the first row and first
column — divided by the count of inside cells floored to 1. -/
def aggregate_claimed (NX NY : ℕ) (phi psi : Buf K) (xy_in : ℕ → ℕ → Bool) : K :=
  let s := (Finset.range NX ×ˢ Finset.range NY).filter (fun ij => xy_in ij.1 ij.2)
  let n := s.card
  (∑ ij ∈ s, (phi ij.1 ij.2 * phi ij.1 ij.2 + psi ij.1 ij.2 * psi ij.1 ij.2)) /
    (if n = 0 then (1 : K) else (n : K))

/-- `renormalise_field` of src/schrodinger.c (lines 375-392): divides `phi`
and `psi` by `stdv = sqrt(variance)` on every cell of the loops
`for (i=1; i<NX; i++) for (j=1; j<NY; j++)` with `xy_in[i][j]`; there is no
guard against `stdv == 0`. -/
noncomputable def renormalise_field (NX NY : ℕ) (phi psi : Buf ℝ)
    (xy_in : ℕ → ℕ → Bool) (variance : ℝ) : Buf ℝ × Buf ℝ :=
  let stdv := Real.sqrt variance
  (fun i j =>
    if 1 ≤ i ∧ i < NX ∧ 1 ≤ j ∧ j < NY ∧ xy_in i j then phi i j / stdv else phi i j,
   fun i j =>
    if 1 ≤ i ∧ i < NX ∧ 1 ≤ j ∧ j < NY ∧ xy_in i j then psi i j / stdv else psi i j)

/-- `init_coherent_state` of src/schrodinger.c (lines 163-194): sets the mask
from the membership predicate; inside cells get the coherent wavepacket
(Gaussian envelope, clamped below at `1.0e-15`, times `cos`/`sin` of the
momentum phase), outside cells get exactly `0.0` in both components. -/
noncomputable def init_coherent_state (g : GridSpec) (NX NY : ℕ)
    (x y px py scalex : ℝ) (pred : ℝ → ℝ → Bool) :
    Buf ℝ × Buf ℝ × (ℕ → ℕ → Bool) :=
  let scale2 := scalex * scalex
  let xyin : ℕ → ℕ → Bool := fun i j =>
    let c := ij_to_xy g NX NY i j
    pred c.1 c.2
  (fun i j =>
    let c := ij_to_xy g NX NY i j
    if xyin i j then
      (let dist2 := (c.1 - x) * (c.1 - x) + (c.2 - y) * (c.2 - y)
       let amp0 := Real.exp (-dist2 / scale2)
       let amp := if amp0 < 1.0e-15 then 1.0e-15 else amp0
       let phase := (px * (c.1 - x) + py * (c.2 - y)) / scalex
       amp * Real.cos phase)
    else 0,
   fun i j =>
    let c := ij_to_xy g NX NY i j
    if xyin i j then
      (let dist2 := (c.1 - x) * (c.1 - x) + (c.2 - y) * (c.2 - y)
       let amp0 := Real.exp (-dist2 / scale2)
       let amp := if amp0 < 1.0e-15 then 1.0e-15 else amp0
       let phase := (px * (c.1 - x) + py * (c.2 - y)) / scalex
       amp * Real.sin phase)
    else 0,
   xyin)

end Schrodinger

/-- The discrete 4-neighbor Laplacian with mathematically cleaned index
arithmetic: wrapped (`wrap = true`) or clamped (`wrap = false`) neighbors,
written with `Nat.mod`, `Nat.sub` and `min` instead of the C index juggling. -/
def discreteLaplacian {K : Type*} [Field K] (NX NY : ℕ) (wrap : Bool)
    (f : Buf K) (i j : ℕ) : K :=
  if wrap then
    f ((i + 1) % NX) j + f ((i + NX - 1) % NX) j + f i ((j + 1) % NY) +
      f i ((j + NY - 1) % NY) - 4 * f i j
  else
    f (min (i + 1) (NX - 1)) j + f (i - 1) j + f i (min (j + 1) (NY - 1)) +
      f i (j - 1) - 4 * f i j

/-- The clamped-index 4-neighbor Laplacian exactly as the Dirichlet branch of
src/schrodinger.c computes it (out-of-range indices clamped to the nearest
in-range cell). -/
def clampedDelta {K : Type*} [Field K] (NX NY : ℕ) (f : Buf K) (i j : ℕ) : K :=
  f (clampInc i NX) j + f (clampDec i) j + f i (clampInc j NY) + f i (clampDec j) -
    4 * f i j

/-- Modelled from the spec (§4.5, Dirichlet-reflecting): the reduced Laplacian
that sums only the axis neighbors actually present in the grid — 3 terms on an
edge, 2 at a corner — subtracting the cell value once per present neighbor. -/
def reducedLaplacian {K : Type*} [Field K] (NX NY : ℕ) (f : Buf K) (i j : ℕ) : K :=
  (if i + 1 < NX then f (i + 1) j - f i j else 0) +
    (if 1 ≤ i then f (i - 1) j - f i j else 0) +
    (if j + 1 < NY then f i (j + 1) - f i j else 0) +
    (if 1 ≤ j then f i (j - 1) - f i j else 0)

namespace Wave3D

/-- The configuration of `evolve_wave_half` in src/wave_3d.c: the grid size,
the boundary policy, the global constants `KAPPA`, `KAPPA_SIDES`,
`KAPPA_TOPBOT`, `GAMMA_SIDES`, `GAMMA_TOPBOT`, the per-cell coefficient tables
`tc`, `tcc`, `tgamma`, and the domain mask.  The flat array index `i*NY+j` of
the source corresponds to cell `(i, j)`.  Compile-time configuration:
`TWOSPEEDS 0` (the `(TWOSPEEDS)||...` guards reduce to the mask test),
`OSCILLATE_LEFT 0` and `FLOOR 0` (those branches are dead). -/
structure Params (K : Type*) where
  NX : ℕ
  NY : ℕ
  b_cond : BCond
  kappa : K
  kappa_sides : K
  kappa_topbot : K
  gamma_sides : K
  gamma_topbot : K
  tc : Buf K
  tcc : Buf K
  tgamma : Buf K
  xy_in : ℕ → ℕ → Bool

variable {K : Type*} [Field K]

/-- The interior-style recurrence of src/wave_3d.c,
`-y + 2*x + tcc[i*NY+j]*delta - KAPPA*x - tgamma[i*NY+j]*(x-y)`. -/
def interiorUpdate (P : Params K) (i j : ℕ) (x y delta : K) : K :=
  -y + 2 * x + P.tcc i j * delta - P.kappa * x - P.tgamma i j * (x - y)

/-- The value written by the bulk pass into `phi_out[i*NY+j]`
(src/wave_3d.c lines 285-292). -/
def bulkVal (P : Params K) (phi_in psi_in : Buf K) (i j : ℕ) : K :=
  let x := phi_in i j
  let y := psi_in i j
  let delta := phi_in (i + 1) j + phi_in (i - 1) j + phi_in i (j + 1) + phi_in i (j - 1) - 4 * x
  interiorUpdate P i j x y delta

/-- The value written by the left-boundary pass into `phi_out[j]`
(src/wave_3d.c lines 302-330). -/
def leftVal (P : Params K) (phi_in psi_in : Buf K) (j : ℕ) : K :=
  let x := phi_in 0 j
  let y := psi_in 0 j
  match P.b_cond with
  | BCond.dirichlet =>
      let delta := phi_in 1 j + phi_in 0 (j + 1) + phi_in 0 (j - 1) - 3 * x
      interiorUpdate P 0 j x y delta
  | BCond.periodic =>
      let delta := phi_in 1 j + phi_in (P.NX - 1) j + phi_in 0 (j + 1) + phi_in 0 (j - 1) - 4 * x
      interiorUpdate P 0 j x y delta
  | BCond.absorbing =>
      x - P.tc 0 j * (x - phi_in 1 j) - P.kappa_sides * x - P.gamma_sides * (x - y)
  | BCond.vper_habs =>
      x - P.tc 0 j * (x - phi_in 1 j) - P.kappa_sides * x - P.gamma_sides * (x - y)

/-- The value written by the right-boundary pass into `phi_out[(NX-1)*NY+j]`
(src/wave_3d.c lines 338-366). -/
def rightVal (P : Params K) (phi_in psi_in : Buf K) (j : ℕ) : K :=
  let x := phi_in (P.NX - 1) j
  let y := psi_in (P.NX - 1) j
  match P.b_cond with
  | BCond.dirichlet =>
      let delta := phi_in (P.NX - 2) j + phi_in (P.NX - 1) (j + 1) + phi_in (P.NX - 1) (j - 1) - 3 * x
      interiorUpdate P (P.NX - 1) j x y delta
  | BCond.periodic =>
      let delta := phi_in (P.NX - 2) j + phi_in 0 j + phi_in (P.NX - 1) (j + 1) + phi_in (P.NX - 1) (j - 1) - 4 * x
      interiorUpdate P (P.NX - 1) j x y delta
  | BCond.absorbing =>
      x - P.tc (P.NX - 1) j * (x - phi_in (P.NX - 2) j) - P.kappa_sides * x - P.gamma_sides * (x - y)
  | BCond.vper_habs =>
      x - P.tc (P.NX - 1) j * (x - phi_in (P.NX - 2) j) - P.kappa_sides * x - P.gamma_sides * (x - y)

/-- The value written by the top-boundary pass into `phi_out[i*NY+NY-1]`
(src/wave_3d.c lines 374-416). -/
def topVal (P : Params K) (phi_in psi_in : Buf K) (i : ℕ) : K :=
  let x := phi_in i (P.NY - 1)
  let y := psi_in i (P.NY - 1)
  match P.b_cond with
  | BCond.dirichlet =>
      let iplus := clampInc i P.NX
      let iminus := clampDec i
      let delta := phi_in iplus (P.NY - 1) + phi_in iminus (P.NY - 1) + phi_in i (P.NY - 2) - 3 * x
      interiorUpdate P i (P.NY - 1) x y delta
  | BCond.periodic =>
      let iplus := wrapInc i P.NX
      let iminus := wrapDec i P.NX
      let delta := phi_in iplus (P.NY - 1) + phi_in iminus (P.NY - 1) + phi_in i (P.NY - 2) + phi_in i 0 - 4 * x
      interiorUpdate P i (P.NY - 1) x y delta
  | BCond.absorbing =>
      x - P.tc i (P.NY - 1) * (x - phi_in i (P.NY - 2)) - P.kappa_topbot * x - P.gamma_topbot * (x - y)
  | BCond.vper_habs =>
      let iplus := clampInc i P.NX
      let iminus := clampDec i
      let delta := phi_in iplus (P.NY - 1) + phi_in iminus (P.NY - 1) + phi_in i (P.NY - 2) + phi_in i 0 - 4 * x
      if i = 0 then
        x - P.tc 0 (P.NY - 1) * (x - phi_in 1 (P.NY - 1)) - P.kappa_sides * x - P.gamma_sides * (x - y)
      else interiorUpdate P i (P.NY - 1) x y delta

/-- The value written by the bottom-boundary pass into `phi_out[i*NY]`
(src/wave_3d.c lines 424-466). -/
def bottomVal (P : Params K) (phi_in psi_in : Buf K) (i : ℕ) : K :=
  let x := phi_in i 0
  let y := psi_in i 0
  match P.b_cond with
  | BCond.dirichlet =>
      let iplus := clampInc i P.NX
      let iminus := clampDec i
      let delta := phi_in iplus 0 + phi_in iminus 0 + phi_in i 1 - 3 * x
      interiorUpdate P i 0 x y delta
  | BCond.periodic =>
      let iplus := wrapInc i P.NX
      let iminus := wrapDec i P.NX
      let delta := phi_in iplus 0 + phi_in iminus 0 + phi_in i 1 + phi_in i (P.NY - 1) - 4 * x
      interiorUpdate P i 0 x y delta
  | BCond.absorbing =>
      x - P.tc i 0 * (x - phi_in i 1) - P.kappa_topbot * x - P.gamma_topbot * (x - y)
  | BCond.vper_habs =>
      let iplus := clampInc i P.NX
      let iminus := clampDec i
      let delta := phi_in iplus 0 + phi_in iminus 0 + phi_in i 1 + phi_in i (P.NY - 1) - 4 * x
      if i = 0 then
        x - P.tc 0 0 * (x - phi_in 1 0) - P.kappa_sides * x - P.gamma_sides * (x - y)
      else interiorUpdate P i 0 x y delta

/-- The bulk pass of `evolve_wave_half` (src/wave_3d.c lines 281-296):
cells `1 ≤ i ≤ NX-2`, `1 ≤ j ≤ NY-2` in the domain are written into the
output buffers from the input buffers; all other cells keep the previous
output contents. -/
def bulkPass (P : Params K) (phi_in psi_in : Buf K) (out : Buf K × Buf K) :
    Buf K × Buf K :=
  (fun i j =>
    if 1 ≤ i ∧ i < P.NX - 1 ∧ 1 ≤ j ∧ j < P.NY - 1 ∧ P.xy_in i j then
      bulkVal P phi_in psi_in i j
    else out.1 i j,
   fun i j =>
    if 1 ≤ i ∧ i < P.NX - 1 ∧ 1 ≤ j ∧ j < P.NY - 1 ∧ P.xy_in i j then phi_in i j
    else out.2 i j)

/-- The left-boundary pass (src/wave_3d.c lines 300-333): cells `(0, j)` for
`1 ≤ j ≤ NY-2` in the domain. -/
def leftPass (P : Params K) (phi_in psi_in : Buf K) (out : Buf K × Buf K) :
    Buf K × Buf K :=
  (fun i j =>
    if i = 0 ∧ 1 ≤ j ∧ j < P.NY - 1 ∧ P.xy_in 0 j then leftVal P phi_in psi_in j
    else out.1 i j,
   fun i j =>
    if i = 0 ∧ 1 ≤ j ∧ j < P.NY - 1 ∧ P.xy_in 0 j then phi_in 0 j
    else out.2 i j)

/-- The right-boundary pass (src/wave_3d.c lines 336-369): cells `(NX-1, j)`
for `1 ≤ j ≤ NY-2` in the domain. -/
def rightPass (P : Params K) (phi_in psi_in : Buf K) (out : Buf K × Buf K) :
    Buf K × Buf K :=
  (fun i j =>
    if i = P.NX - 1 ∧ 1 ≤ j ∧ j < P.NY - 1 ∧ P.xy_in (P.NX - 1) j then
      rightVal P phi_in psi_in j
    else out.1 i j,
   fun i j =>
    if i = P.NX - 1 ∧ 1 ≤ j ∧ j < P.NY - 1 ∧ P.xy_in (P.NX - 1) j then phi_in (P.NX - 1) j
    else out.2 i j)

/-- The top-boundary pass (src/wave_3d.c lines 372-419): cells `(i, NY-1)`
for `0 ≤ i ≤ NX-1` in the domain — including both top corners. -/
def topPass (P : Params K) (phi_in psi_in : Buf K) (out : Buf K × Buf K) :
    Buf K × Buf K :=
  (fun i j =>
    if j = P.NY - 1 ∧ i < P.NX ∧ P.xy_in i (P.NY - 1) then topVal P phi_in psi_in i
    else out.1 i j,
   fun i j =>
    if j = P.NY - 1 ∧ i < P.NX ∧ P.xy_in i (P.NY - 1) then phi_in i (P.NY - 1)
    else out.2 i j)

/-- The bottom-boundary pass (src/wave_3d.c lines 422-469): cells `(i, 0)`
for `0 ≤ i ≤ NX-1` in the domain — including both bottom corners. -/
def bottomPass (P : Params K) (phi_in psi_in : Buf K) (out : Buf K × Buf K) :
    Buf K × Buf K :=
  (fun i j =>
    if j = 0 ∧ i < P.NX ∧ P.xy_in i 0 then bottomVal P phi_in psi_in i
    else out.1 i j,
   fun i j =>
    if j = 0 ∧ i < P.NX ∧ P.xy_in i 0 then phi_in i 0
    else out.2 i j)

/-- `evolve_wave_half` of src/wave_3d.c (lines 264-490): the bulk pass, then
the left, right, top and bottom boundary passes, all reading only the input
buffers and writing into the output buffers (whose prior contents `out0`
survive at unwritten cells). -/
def evolve_wave_half (P : Params K) (phi_in psi_in : Buf K)
    (out0 : Buf K × Buf K) : Buf K × Buf K :=
  bottomPass P phi_in psi_in
    (topPass P phi_in psi_in
      (rightPass P phi_in psi_in
        (leftPass P phi_in psi_in
          (bulkPass P phi_in psi_in out0))))

/-- The horizontal neighbor-index rule of the 3D variant's passes in the
increasing direction: wrapped for `BC_PERIODIC`, clamped otherwise
(`BC_DIRICHLET`, `BC_ABSORBING`, and `BC_VPER_HABS`, which is absorbing —
hence clamped — along the horizontal axis). -/
def nbHPlus (bc : BCond) (n i : ℕ) : ℕ :=
  if bc = BCond.periodic then wrapInc i n else clampInc i n

/-- The horizontal neighbor-index rule of the 3D variant's passes in the
decreasing direction; see `Wave3D.nbHPlus`. -/
def nbHMinus (bc : BCond) (n i : ℕ) : ℕ :=
  if bc = BCond.periodic then wrapDec i n else clampDec i

/-- The vertical neighbor-index rule of the 3D variant's passes in the
increasing direction: wrapped for `BC_PERIODIC` and for `BC_VPER_HABS`
(vertically periodic), clamped otherwise. -/
def nbVPlus (bc : BCond) (n j : ℕ) : ℕ :=
  if bc = BCond.periodic ∨ bc = BCond.vper_habs then wrapInc j n else clampInc j n

/-- The vertical neighbor-index rule of the 3D variant's passes in the
decreasing direction; see `Wave3D.nbVPlus`. -/
def nbVMinus (bc : BCond) (n j : ℕ) : ℕ :=
  if bc = BCond.periodic ∨ bc = BCond.vper_habs then wrapDec j n else clampDec j

end Wave3D

/-! Concrete fixtures used by the counterexamples and witnesses. -/

/-- A fully-inside domain mask. -/
def allInside : ℕ → ℕ → Bool := fun _ _ => true

/-- A domain mask whose only outside cell is `(0, 0)`. -/
def maskNot00 : ℕ → ℕ → Bool := fun i j => !(decide (i = 0 ∧ j = 0))

/-- Unit impulse at cell `(2, 2)` (the §8 scenario of the spec). -/
def impulse22 : Buf ℚ := fun i j => if i = 2 ∧ j = 2 then 1 else 0

/-- Unit impulse at cell `(0, 0)`. -/
def impulse00 : Buf ℚ := fun i j => if i = 0 ∧ j = 0 then 1 else 0

/-- The everywhere-zero rational buffer. -/
def zeroBufQ : Buf ℚ := fun _ _ => 0

/-- What the in-place `evolve_wave` of src/wave_billiard.c actually produces
in `phi` on the §8 scenario (4×4 periodic, `courant2 = 1/4`, zero stiffness
and damping, unit impulse at `(2,2)`): cells processed after an already
updated neighbor pick up its new value. -/
def c2_actual : Buf ℚ := fun i j =>
  if i = 2 ∧ j = 2 then 9 / 8
  else if (i = 1 ∧ j = 2) ∨ (i = 2 ∧ j = 1) then 1 / 4
  else if (i = 2 ∧ j = 3) ∨ (i = 3 ∧ j = 2) then 19 / 64
  else if (i = 1 ∧ j = 3) ∨ (i = 3 ∧ j = 1) then 1 / 16
  else if i = 3 ∧ j = 3 then 19 / 128
  else 0

/-- The values the spec's §8 scenario claims (and which the aliasing-free
two-phase step produces): `1` at `(2,2)`, `1/4` at its four axis neighbors,
`0` elsewhere. -/
def c2_claimed : Buf ℚ := fun i j =>
  if i = 2 ∧ j = 2 then 1
  else if (i = 1 ∧ j = 2) ∨ (i = 2 ∧ j = 1) ∨ (i = 2 ∧ j = 3) ∨ (i = 3 ∧ j = 2) then 1 / 4
  else 0

/-- First locality-witness input: impulse at `(1, 1)`. -/
def c1wA : Buf ℚ := fun i j => if i = 1 ∧ j = 1 then 1 else 0

/-- Second locality-witness input: agrees with `c1wA` on cell `(1,1)` and its
four periodic neighbors in a 3×3 grid, and differs at `(0, 0)`. -/
def c1wB : Buf ℚ := fun i j =>
  if i = 0 ∧ j = 0 then 7 else if i = 1 ∧ j = 1 then 1 else 0

/-- A 2×2 rational test grid. -/
def qGridA : Buf ℚ := fun i j =>
  if i = 0 ∧ j = 0 then 1
  else if i = 1 ∧ j = 0 then 2
  else if i = 0 ∧ j = 1 then 3
  else if i = 1 ∧ j = 1 then 5
  else 0

/-- A second 2×2 rational test grid. -/
def qGridB : Buf ℚ := fun i j =>
  if i = 0 ∧ j = 0 then 7
  else if i = 1 ∧ j = 0 then 11
  else if i = 0 ∧ j = 1 then 13
  else if i = 1 ∧ j = 1 then 17
  else 0

/-- Real-valued buffer with a single unit at `(1, 1)`. -/
noncomputable def oneCell11R : Buf ℝ := fun i j => if i = 1 ∧ j = 1 then 1 else 0

/-- The everywhere-zero real buffer. -/
noncomputable def zeroBufR : Buf ℝ := fun _ _ => 0

/-- A 2×2 grid agreeing with `qGridA` except at cell `(1, 0)` — which is not
among cell `(0,1)`'s Dirichlet-clamped neighbors on a 2×2 grid. -/
def w3dPhiB : Buf ℚ := fun i j => if i = 1 ∧ j = 0 then 99 else qGridA i j

/-- A 2×2 grid agreeing with `qGridB` except at cell `(1, 1)` — the passes
read `psi` only at the written cell itself. -/
def w3dPsiB : Buf ℚ := fun i j => if i = 1 ∧ j = 1 then 55 else qGridB i j

/-- An all-outside membership predicate (a degenerate domain). -/
def noInside : ℝ → ℝ → Bool := fun _ _ => false

/-- The unit-square grid rectangle. -/
def unitSquare : GridSpec := ⟨0, 1, 0, 1⟩

/-- A concrete 2×2 Dirichlet parameter block for the 3D-variant updater. -/
def c10P : Wave3D.Params ℚ :=
  ⟨2, 2, BCond.dirichlet, 0, 0, 0, 0, 0, zeroBufQ, (fun _ _ => 1 / 4), zeroBufQ, allInside⟩

/-! Helper lemmas about the index arithmetic. -/

theorem wrapDec_eq {i n : ℕ} (hn : 0 < n) (hi : i < n) :
    wrapDec i n = if i = 0 then n - 1 else i - 1 := by
  unfold wrapDec
  rcases i with _ | i2
  · have h1 : Int.tmod (((0 : ℕ) : ℤ) - 1) ((n : ℕ) : ℤ) = -(((1 % n : ℕ)) : ℤ) := rfl
    simp only [h1, if_pos rfl]
    rcases n with _ | _ | n3
    · omega
    · norm_num
    · have h2 : 1 % (n3 + 2) = 1 := Nat.mod_eq_of_lt (by omega)
      rw [h2]
      have h3 : -(((1 : ℕ) : ℤ)) < 0 := by norm_num
      rw [if_pos h3]
      push_cast
      omega
  · have h0 : ((i2 + 1 : ℕ) : ℤ) - 1 = ((i2 : ℕ) : ℤ) := by push_cast; ring
    rw [h0, Int.tmod_eq_emod (by positivity) (by positivity),
      Int.emod_eq_of_lt (by positivity) (by exact_mod_cast (by omega : i2 < n))]
    simp
    omega

theorem wrapDec_eq_mod {i n : ℕ} (hn : 0 < n) (hi : i < n) :
    wrapDec i n = (i + n - 1) % n := by
  rw [wrapDec_eq hn hi]
  rcases i with _ | i2
  · simp [Nat.mod_eq_of_lt (by omega : n - 1 < n)]
  · have h1 : i2 + 1 + n - 1 = i2 + n := by omega
    rw [h1, if_neg (by omega), Nat.add_mod_right, Nat.mod_eq_of_lt (by omega)]
    omega

theorem clampDec_eq (i : ℕ) : clampDec i = i - 1 := by
  unfold clampDec
  split <;> omega

theorem clampInc_eq_min {i n : ℕ} (hi : i < n) : clampInc i n = min (i + 1) (n - 1) := by
  unfold clampInc
  split <;> omega

/-! A generic invariance lemma for folds. -/

theorem foldl_fix {σ α β : Type*} (f : σ → α → σ) (g : σ → β)
    (h : ∀ s a, g (f s a) = g s) : ∀ (l : List α) (s : σ), g (List.foldl f s l) = g s := by
  intro l
  induction l with
  | nil => intro s; rfl
  | cons a t ih => intro s; rw [List.foldl_cons, ih, h]

/-! Mask invariance of the updaters at outside cells. -/

theorem WaveBilliard.evolveCell_preserves_outside {K : Type*} [Field K]
    (NX NY : ℕ) (c k g : K) (xy_in : ℕ → ℕ → Bool) {a b : ℕ}
    (hab : xy_in a b = false) (st : Buf K × Buf K) (i j : ℕ) :
    ((evolveCell NX NY c k g xy_in st i j).1 a b, (evolveCell NX NY c k g xy_in st i j).2 a b)
      = (st.1 a b, st.2 a b) := by
  unfold evolveCell
  by_cases h : xy_in i j
  · rw [if_pos h]
    have hne : ¬(a = i ∧ b = j) := by
      rintro ⟨rfl, rfl⟩
      rw [hab] at h
      exact Bool.false_ne_true h
    simp [upd, hne]
  · rw [if_neg h]

theorem WaveBilliard.evolve_wave_preserves_outside {K : Type*} [Field K]
    (NX NY : ℕ) (c k g : K) (xy_in : ℕ → ℕ → Bool) {a b : ℕ}
    (hab : xy_in a b = false) (phi psi : Buf K) :
    ((evolve_wave NX NY c k g xy_in phi psi).1 a b,
     (evolve_wave NX NY c k g xy_in phi psi).2 a b) = (phi a b, psi a b) := by
  unfold evolve_wave
  refine foldl_fix _ (fun st => (st.1 a b, st.2 a b)) ?_ (List.range NX) (phi, psi)
  intro s i
  exact foldl_fix _ (fun st => (st.1 a b, st.2 a b))
    (fun s2 j => evolveCell_preserves_outside NX NY c k g xy_in hab s2 i j) (List.range NY) s

theorem WaveBilliard.evolve_wave_iter_preserves_outside {K : Type*} [Field K]
    (NX NY : ℕ) (c k g : K) (xy_in : ℕ → ℕ → Bool) {a b : ℕ}
    (hab : xy_in a b = false) (st : Buf K × Buf K) (n : ℕ) :
    ((evolve_wave_iter NX NY c k g xy_in st n).1 a b,
     (evolve_wave_iter NX NY c k g xy_in st n).2 a b) = (st.1 a b, st.2 a b) := by
  induction n with
  | zero => rfl
  | succ m ih =>
      have h2 := evolve_wave_preserves_outside NX NY c k g xy_in hab
        (evolve_wave_iter NX NY c k g xy_in st m).1 (evolve_wave_iter NX NY c k g xy_in st m).2
      rw [evolve_wave_iter, h2, ih]

theorem Schrodinger.evolve_wave_half_preserves_outside {K : Type*} [Field K]
    (NX NY : ℕ) (bc : BCond) (s s1 : K) (xy_in : ℕ → ℕ → Bool) {a b : ℕ}
    (hab : xy_in a b = false) (phi_in psi_in phi_out psi_out : Buf K) :
    (evolve_wave_half NX NY bc s s1 xy_in phi_in psi_in phi_out psi_out).1 a b = phi_out a b ∧
    (evolve_wave_half NX NY bc s s1 xy_in phi_in psi_in phi_out psi_out).2 a b = psi_out a b := by
  unfold evolve_wave_half
  constructor <;> simp [hab]

theorem Schrodinger.evolve_wave_outside_cells_fixed {K : Type*} [Field K]
    (NX NY : ℕ) (bc : BCond) (s s1 : K) (xy_in : ℕ → ℕ → Bool) {a b : ℕ}
    (hab : xy_in a b = false) (phi psi phi_tmp psi_tmp : Buf K) :
    (evolve_wave NX NY bc s s1 xy_in phi psi phi_tmp psi_tmp).1.1 a b = phi a b ∧
    (evolve_wave NX NY bc s s1 xy_in phi psi phi_tmp psi_tmp).1.2 a b = psi a b := by
  unfold evolve_wave
  exact evolve_wave_half_preserves_outside NX NY bc s s1 xy_in hab _ _ phi psi

theorem Schrodinger.evolve_wave_iter_outside_cells_fixed {K : Type*} [Field K]
    (NX NY : ℕ) (bc : BCond) (s s1 : K) (xy_in : ℕ → ℕ → Bool) {a b : ℕ}
    (hab : xy_in a b = false) (st : (Buf K × Buf K) × (Buf K × Buf K)) (n : ℕ) :
    (evolve_wave_iter NX NY bc s s1 xy_in st n).1.1 a b = st.1.1 a b ∧
    (evolve_wave_iter NX NY bc s s1 xy_in st n).1.2 a b = st.1.2 a b := by
  induction n with
  | zero => exact ⟨rfl, rfl⟩
  | succ m ih =>
      have h2 := evolve_wave_outside_cells_fixed NX NY bc s s1 xy_in hab
        (evolve_wave_iter NX NY bc s s1 xy_in st m).1.1
        (evolve_wave_iter NX NY bc s s1 xy_in st m).1.2
        (evolve_wave_iter NX NY bc s s1 xy_in st m).2.1
        (evolve_wave_iter NX NY bc s s1 xy_in st m).2.2
      rw [evolve_wave_iter]
      exact ⟨h2.1.trans ih.1, h2.2.trans ih.2⟩

/-! Locality of the Schrödinger half-step and the clean form of its Laplacian. -/

theorem Schrodinger.nbMinus_absorbing_eq (n i : ℕ) :
    nbMinus BCond.absorbing n i = i - 1 := by
  simp [nbMinus, clampDec_eq]

theorem Schrodinger.nbPlus_absorbing_eq_one {n : ℕ} (hn : 2 ≤ n) :
    nbPlus BCond.absorbing n 0 = 1 := by
  unfold nbPlus clampInc
  rw [if_neg (by simp), if_neg (by omega)]

theorem Schrodinger.evolveCell_locality {K : Type*} [Field K]
    (NX NY : ℕ) (bc : BCond) (s s1 : K) (phi1 psi1 phi2 psi2 : Buf K) (i j : ℕ)
    (hi : i < NX) (hj : j < NY)
    (hp0 : phi1 i j = phi2 i j) (hq0 : psi1 i j = psi2 i j)
    (hpp : phi1 (nbPlus bc NX i) j = phi2 (nbPlus bc NX i) j)
    (hpm : phi1 (nbMinus bc NX i) j = phi2 (nbMinus bc NX i) j)
    (hpjp : phi1 i (nbPlus bc NY j) = phi2 i (nbPlus bc NY j))
    (hpjm : phi1 i (nbMinus bc NY j) = phi2 i (nbMinus bc NY j))
    (hqp : psi1 (nbPlus bc NX i) j = psi2 (nbPlus bc NX i) j)
    (hqm : psi1 (nbMinus bc NX i) j = psi2 (nbMinus bc NX i) j)
    (hqjp : psi1 i (nbPlus bc NY j) = psi2 i (nbPlus bc NY j))
    (hqjm : psi1 i (nbMinus bc NY j) = psi2 i (nbMinus bc NY j)) :
    evolveCell NX NY bc s s1 phi1 psi1 i j = evolveCell NX NY bc s s1 phi2 psi2 i j := by
  by_cases hb : bc = BCond.absorbing
  · subst hb
    have him := nbMinus_absorbing_eq NX i
    have hjm := nbMinus_absorbing_eq NY j
    rw [him] at hpm hqm
    rw [hjm] at hpjm hqjm
    simp only [evolveCell, him, hjm]
    split_ifs with h1 h2 h3 h4 h5
    · simp at h1
    · rw [hp0, hq0, hpp, hpm, hpjp, hpjm, hqp, hqm, hqjp, hqjm]
    · rw [hp0, hq0, hpm, hqm]
    · rw [hp0, hq0, hpjm, hqjm]
    · have hnx : 2 ≤ NX := by omega
      have h1' := nbPlus_absorbing_eq_one (n := NX) hnx
      rw [h5] at hpp hqp
      rw [h1'] at hpp hqp
      rw [hp0, hq0, hpp, hqp]
    · have hj0 : j = 0 := by omega
      have hny : 2 ≤ NY := by omega
      have h1' := nbPlus_absorbing_eq_one (n := NY) hny
      rw [hj0] at hpjp hqjp
      rw [h1'] at hpjp hqjp
      rw [hp0, hq0, hpjp, hqjp]
  · simp only [evolveCell, if_pos hb]
    rw [hp0, hq0, hpp, hpm, hpjp, hpjm, hqp, hqm, hqjp, hqjm]

theorem Schrodinger.delta_eq_discreteLaplacian {K : Type*} [Field K]
    (NX NY : ℕ) (bc : BCond) (f : Buf K) (i j : ℕ)
    (hbc : bc = BCond.dirichlet ∨ bc = BCond.periodic) (hi : i < NX) (hj : j < NY) :
    f (nbPlus bc NX i) j + f (nbMinus bc NX i) j + f i (nbPlus bc NY j) +
        f i (nbMinus bc NY j) - 4 * f i j
      = discreteLaplacian NX NY (decide (bc = BCond.periodic)) f i j := by
  have hx : 0 < NX := by omega
  have hy : 0 < NY := by omega
  rcases hbc with rfl | rfl
  · simp only [nbPlus, nbMinus, discreteLaplacian]
    rw [clampInc_eq_min hi, clampInc_eq_min hj, clampDec_eq, clampDec_eq]
    simp
  · simp only [nbPlus, nbMinus, discreteLaplacian]
    rw [wrapDec_eq_mod hx hi, wrapDec_eq_mod hy hj]
    simp [wrapInc]

/-! Pointwise application lemmas for the 3D-variant passes. -/

theorem Wave3D.bulkPass_fst {K : Type*} [Field K] (P : Wave3D.Params K)
    (phi_in psi_in : Buf K) (out : Buf K × Buf K) (i j : ℕ) :
    (Wave3D.bulkPass P phi_in psi_in out).1 i j
      = if 1 ≤ i ∧ i < P.NX - 1 ∧ 1 ≤ j ∧ j < P.NY - 1 ∧ P.xy_in i j then
          Wave3D.bulkVal P phi_in psi_in i j
        else out.1 i j := rfl

theorem Wave3D.bulkPass_snd {K : Type*} [Field K] (P : Wave3D.Params K)
    (phi_in psi_in : Buf K) (out : Buf K × Buf K) (i j : ℕ) :
    (Wave3D.bulkPass P phi_in psi_in out).2 i j
      = if 1 ≤ i ∧ i < P.NX - 1 ∧ 1 ≤ j ∧ j < P.NY - 1 ∧ P.xy_in i j then phi_in i j
        else out.2 i j := rfl

theorem Wave3D.leftPass_fst {K : Type*} [Field K] (P : Wave3D.Params K)
    (phi_in psi_in : Buf K) (out : Buf K × Buf K) (i j : ℕ) :
    (Wave3D.leftPass P phi_in psi_in out).1 i j
      = if i = 0 ∧ 1 ≤ j ∧ j < P.NY - 1 ∧ P.xy_in 0 j then
          Wave3D.leftVal P phi_in psi_in j
        else out.1 i j := rfl

theorem Wave3D.leftPass_snd {K : Type*} [Field K] (P : Wave3D.Params K)
    (phi_in psi_in : Buf K) (out : Buf K × Buf K) (i j : ℕ) :
    (Wave3D.leftPass P phi_in psi_in out).2 i j
      = if i = 0 ∧ 1 ≤ j ∧ j < P.NY - 1 ∧ P.xy_in 0 j then phi_in 0 j
        else out.2 i j := rfl

theorem Wave3D.rightPass_fst {K : Type*} [Field K] (P : Wave3D.Params K)
    (phi_in psi_in : Buf K) (out : Buf K × Buf K) (i j : ℕ) :
    (Wave3D.rightPass P phi_in psi_in out).1 i j
      = if i = P.NX - 1 ∧ 1 ≤ j ∧ j < P.NY - 1 ∧ P.xy_in (P.NX - 1) j then
          Wave3D.rightVal P phi_in psi_in j
        else out.1 i j := rfl

theorem Wave3D.rightPass_snd {K : Type*} [Field K] (P : Wave3D.Params K)
    (phi_in psi_in : Buf K) (out : Buf K × Buf K) (i j : ℕ) :
    (Wave3D.rightPass P phi_in psi_in out).2 i j
      = if i = P.NX - 1 ∧ 1 ≤ j ∧ j < P.NY - 1 ∧ P.xy_in (P.NX - 1) j then phi_in (P.NX - 1) j
        else out.2 i j := rfl

theorem Wave3D.topPass_fst {K : Type*} [Field K] (P : Wave3D.Params K)
    (phi_in psi_in : Buf K) (out : Buf K × Buf K) (i j : ℕ) :
    (Wave3D.topPass P phi_in psi_in out).1 i j
      = if j = P.NY - 1 ∧ i < P.NX ∧ P.xy_in i (P.NY - 1) then
          Wave3D.topVal P phi_in psi_in i
        else out.1 i j := rfl

theorem Wave3D.topPass_snd {K : Type*} [Field K] (P : Wave3D.Params K)
    (phi_in psi_in : Buf K) (out : Buf K × Buf K) (i j : ℕ) :
    (Wave3D.topPass P phi_in psi_in out).2 i j
      = if j = P.NY - 1 ∧ i < P.NX ∧ P.xy_in i (P.NY - 1) then phi_in i (P.NY - 1)
        else out.2 i j := rfl

theorem Wave3D.bottomPass_fst {K : Type*} [Field K] (P : Wave3D.Params K)
    (phi_in psi_in : Buf K) (out : Buf K × Buf K) (i j : ℕ) :
    (Wave3D.bottomPass P phi_in psi_in out).1 i j
      = if j = 0 ∧ i < P.NX ∧ P.xy_in i 0 then Wave3D.bottomVal P phi_in psi_in i
        else out.1 i j := rfl

theorem Wave3D.bottomPass_snd {K : Type*} [Field K] (P : Wave3D.Params K)
    (phi_in psi_in : Buf K) (out : Buf K × Buf K) (i j : ℕ) :
    (Wave3D.bottomPass P phi_in psi_in out).2 i j
      = if j = 0 ∧ i < P.NX ∧ P.xy_in i 0 then phi_in i 0
        else out.2 i j := rfl

/-! Neighbor-index lemmas and locality of the 3D-variant half-step. -/

theorem Wave3D.nbHPlus_periodic (n i : ℕ) :
    Wave3D.nbHPlus BCond.periodic n i = wrapInc i n := if_pos rfl

theorem Wave3D.nbHMinus_periodic (n i : ℕ) :
    Wave3D.nbHMinus BCond.periodic n i = wrapDec i n := if_pos rfl

theorem Wave3D.nbHPlus_of_ne {bc : BCond} (n i : ℕ) (h : bc ≠ BCond.periodic) :
    Wave3D.nbHPlus bc n i = clampInc i n := if_neg h

theorem Wave3D.nbHMinus_of_ne {bc : BCond} (n i : ℕ) (h : bc ≠ BCond.periodic) :
    Wave3D.nbHMinus bc n i = clampDec i := if_neg h

theorem Wave3D.nbHPlus_eq_succ {bc : BCond} {n i : ℕ} (h : i + 1 < n) :
    Wave3D.nbHPlus bc n i = i + 1 := by
  unfold Wave3D.nbHPlus
  split
  · exact Nat.mod_eq_of_lt h
  · unfold clampInc
    rw [if_neg (by omega)]

theorem Wave3D.nbHMinus_eq_pred {bc : BCond} {n i : ℕ} (h1 : 1 ≤ i) (h2 : i < n) :
    Wave3D.nbHMinus bc n i = i - 1 := by
  unfold Wave3D.nbHMinus
  split
  · rw [wrapDec_eq (by omega) h2, if_neg (by omega)]
  · exact clampDec_eq i

theorem Wave3D.nbHPlus_zero {bc : BCond} {n : ℕ} (h : 2 ≤ n) :
    Wave3D.nbHPlus bc n 0 = 1 := by
  unfold Wave3D.nbHPlus
  split
  · exact Nat.mod_eq_of_lt (by omega)
  · unfold clampInc
    rw [if_neg (by omega)]

theorem Wave3D.nbHMinus_zero_periodic {n : ℕ} (h : 0 < n) :
    Wave3D.nbHMinus BCond.periodic n 0 = n - 1 := by
  unfold Wave3D.nbHMinus
  rw [if_pos rfl, wrapDec_eq h h]
  simp

theorem Wave3D.nbHPlus_last_periodic {n : ℕ} (h : 1 ≤ n) :
    Wave3D.nbHPlus BCond.periodic n (n - 1) = 0 := by
  unfold Wave3D.nbHPlus wrapInc
  rw [if_pos rfl]
  have h2 : n - 1 + 1 = n := by omega
  rw [h2, Nat.mod_self]

theorem Wave3D.nbHMinus_last {bc : BCond} {n : ℕ} (h : 2 ≤ n) :
    Wave3D.nbHMinus bc n (n - 1) = n - 2 := by
  rw [Wave3D.nbHMinus_eq_pred (by omega) (by omega)]
  omega

theorem Wave3D.nbVPlus_wrap {bc : BCond} (n j : ℕ)
    (h : bc = BCond.periodic ∨ bc = BCond.vper_habs) :
    Wave3D.nbVPlus bc n j = wrapInc j n := if_pos h

theorem Wave3D.nbVMinus_wrap {bc : BCond} (n j : ℕ)
    (h : bc = BCond.periodic ∨ bc = BCond.vper_habs) :
    Wave3D.nbVMinus bc n j = wrapDec j n := if_pos h

theorem Wave3D.nbVPlus_eq_succ {bc : BCond} {n j : ℕ} (h : j + 1 < n) :
    Wave3D.nbVPlus bc n j = j + 1 := by
  unfold Wave3D.nbVPlus
  split
  · exact Nat.mod_eq_of_lt h
  · unfold clampInc
    rw [if_neg (by omega)]

theorem Wave3D.nbVMinus_eq_pred {bc : BCond} {n j : ℕ} (h1 : 1 ≤ j) (h2 : j < n) :
    Wave3D.nbVMinus bc n j = j - 1 := by
  unfold Wave3D.nbVMinus
  split
  · rw [wrapDec_eq (by omega) h2, if_neg (by omega)]
  · exact clampDec_eq j

theorem Wave3D.nbVPlus_zero {bc : BCond} {n : ℕ} (h : 2 ≤ n) :
    Wave3D.nbVPlus bc n 0 = 1 := by
  unfold Wave3D.nbVPlus
  split
  · exact Nat.mod_eq_of_lt (by omega)
  · unfold clampInc
    rw [if_neg (by omega)]

theorem Wave3D.nbVMinus_zero_wrap {bc : BCond} {n : ℕ} (h : 0 < n)
    (hb : bc = BCond.periodic ∨ bc = BCond.vper_habs) :
    Wave3D.nbVMinus bc n 0 = n - 1 := by
  unfold Wave3D.nbVMinus
  rw [if_pos hb, wrapDec_eq h h]
  simp

theorem Wave3D.nbVPlus_last_wrap {bc : BCond} {n : ℕ} (h : 1 ≤ n)
    (hb : bc = BCond.periodic ∨ bc = BCond.vper_habs) :
    Wave3D.nbVPlus bc n (n - 1) = 0 := by
  unfold Wave3D.nbVPlus wrapInc
  rw [if_pos hb]
  have h2 : n - 1 + 1 = n := by omega
  rw [h2, Nat.mod_self]

theorem Wave3D.nbVMinus_last {bc : BCond} {n : ℕ} (h : 2 ≤ n) :
    Wave3D.nbVMinus bc n (n - 1) = n - 2 := by
  rw [Wave3D.nbVMinus_eq_pred (by omega) (by omega)]
  omega

theorem Wave3D.bulkVal_congr {K : Type*} [Field K] (P : Wave3D.Params K)
    (phi1 psi1 phi2 psi2 : Buf K) (i j : ℕ)
    (h1 : 1 ≤ i) (h2 : i < P.NX - 1) (h3 : 1 ≤ j) (h4 : j < P.NY - 1)
    (hp0 : phi1 i j = phi2 i j) (hq0 : psi1 i j = psi2 i j)
    (hph : phi1 (Wave3D.nbHPlus P.b_cond P.NX i) j = phi2 (Wave3D.nbHPlus P.b_cond P.NX i) j)
    (hmh : phi1 (Wave3D.nbHMinus P.b_cond P.NX i) j = phi2 (Wave3D.nbHMinus P.b_cond P.NX i) j)
    (hpv : phi1 i (Wave3D.nbVPlus P.b_cond P.NY j) = phi2 i (Wave3D.nbVPlus P.b_cond P.NY j))
    (hmv : phi1 i (Wave3D.nbVMinus P.b_cond P.NY j) = phi2 i (Wave3D.nbVMinus P.b_cond P.NY j)) :
    Wave3D.bulkVal P phi1 psi1 i j = Wave3D.bulkVal P phi2 psi2 i j := by
  rw [Wave3D.nbHPlus_eq_succ (by omega)] at hph
  rw [Wave3D.nbHMinus_eq_pred h1 (by omega)] at hmh
  rw [Wave3D.nbVPlus_eq_succ (by omega)] at hpv
  rw [Wave3D.nbVMinus_eq_pred h3 (by omega)] at hmv
  unfold Wave3D.bulkVal
  dsimp only
  rw [hp0, hq0, hph, hmh, hpv, hmv]

theorem Wave3D.leftVal_congr {K : Type*} [Field K] (P : Wave3D.Params K)
    (phi1 psi1 phi2 psi2 : Buf K) (j : ℕ)
    (hx : 2 ≤ P.NX) (hj1 : 1 ≤ j) (hj2 : j < P.NY - 1)
    (hp0 : phi1 0 j = phi2 0 j) (hq0 : psi1 0 j = psi2 0 j)
    (hph : phi1 (Wave3D.nbHPlus P.b_cond P.NX 0) j = phi2 (Wave3D.nbHPlus P.b_cond P.NX 0) j)
    (hmh : phi1 (Wave3D.nbHMinus P.b_cond P.NX 0) j = phi2 (Wave3D.nbHMinus P.b_cond P.NX 0) j)
    (hpv : phi1 0 (Wave3D.nbVPlus P.b_cond P.NY j) = phi2 0 (Wave3D.nbVPlus P.b_cond P.NY j))
    (hmv : phi1 0 (Wave3D.nbVMinus P.b_cond P.NY j) = phi2 0 (Wave3D.nbVMinus P.b_cond P.NY j)) :
    Wave3D.leftVal P phi1 psi1 j = Wave3D.leftVal P phi2 psi2 j := by
  rw [Wave3D.nbHPlus_zero hx] at hph
  rw [Wave3D.nbVPlus_eq_succ (by omega)] at hpv
  rw [Wave3D.nbVMinus_eq_pred hj1 (by omega)] at hmv
  unfold Wave3D.leftVal
  cases hbc : P.b_cond
  case dirichlet =>
    dsimp only
    rw [hp0, hq0, hph, hpv, hmv]
  case periodic =>
    rw [hbc] at hmh
    rw [Wave3D.nbHMinus_zero_periodic (by omega)] at hmh
    dsimp only
    rw [hp0, hq0, hph, hmh, hpv, hmv]
  case absorbing =>
    dsimp only
    rw [hp0, hq0, hph]
  case vper_habs =>
    dsimp only
    rw [hp0, hq0, hph]

theorem Wave3D.rightVal_congr {K : Type*} [Field K] (P : Wave3D.Params K)
    (phi1 psi1 phi2 psi2 : Buf K) (j : ℕ)
    (hx : 2 ≤ P.NX) (hj1 : 1 ≤ j) (hj2 : j < P.NY - 1)
    (hp0 : phi1 (P.NX - 1) j = phi2 (P.NX - 1) j) (hq0 : psi1 (P.NX - 1) j = psi2 (P.NX - 1) j)
    (hph : phi1 (Wave3D.nbHPlus P.b_cond P.NX (P.NX - 1)) j
      = phi2 (Wave3D.nbHPlus P.b_cond P.NX (P.NX - 1)) j)
    (hmh : phi1 (Wave3D.nbHMinus P.b_cond P.NX (P.NX - 1)) j
      = phi2 (Wave3D.nbHMinus P.b_cond P.NX (P.NX - 1)) j)
    (hpv : phi1 (P.NX - 1) (Wave3D.nbVPlus P.b_cond P.NY j)
      = phi2 (P.NX - 1) (Wave3D.nbVPlus P.b_cond P.NY j))
    (hmv : phi1 (P.NX - 1) (Wave3D.nbVMinus P.b_cond P.NY j)
      = phi2 (P.NX - 1) (Wave3D.nbVMinus P.b_cond P.NY j)) :
    Wave3D.rightVal P phi1 psi1 j = Wave3D.rightVal P phi2 psi2 j := by
  rw [Wave3D.nbHMinus_last hx] at hmh
  rw [Wave3D.nbVPlus_eq_succ (by omega)] at hpv
  rw [Wave3D.nbVMinus_eq_pred hj1 (by omega)] at hmv
  unfold Wave3D.rightVal
  cases hbc : P.b_cond
  case dirichlet =>
    dsimp only
    rw [hp0, hq0, hmh, hpv, hmv]
  case periodic =>
    rw [hbc] at hph
    rw [Wave3D.nbHPlus_last_periodic (by omega)] at hph
    dsimp only
    rw [hp0, hq0, hph, hmh, hpv, hmv]
  case absorbing =>
    dsimp only
    rw [hp0, hq0, hmh]
  case vper_habs =>
    dsimp only
    rw [hp0, hq0, hmh]

theorem Wave3D.topVal_congr {K : Type*} [Field K] (P : Wave3D.Params K)
    (phi1 psi1 phi2 psi2 : Buf K) (i : ℕ)
    (hx : 2 ≤ P.NX) (hy : 2 ≤ P.NY) (hi : i < P.NX)
    (hp0 : phi1 i (P.NY - 1) = phi2 i (P.NY - 1)) (hq0 : psi1 i (P.NY - 1) = psi2 i (P.NY - 1))
    (hph : phi1 (Wave3D.nbHPlus P.b_cond P.NX i) (P.NY - 1)
      = phi2 (Wave3D.nbHPlus P.b_cond P.NX i) (P.NY - 1))
    (hmh : phi1 (Wave3D.nbHMinus P.b_cond P.NX i) (P.NY - 1)
      = phi2 (Wave3D.nbHMinus P.b_cond P.NX i) (P.NY - 1))
    (hpv : phi1 i (Wave3D.nbVPlus P.b_cond P.NY (P.NY - 1))
      = phi2 i (Wave3D.nbVPlus P.b_cond P.NY (P.NY - 1)))
    (hmv : phi1 i (Wave3D.nbVMinus P.b_cond P.NY (P.NY - 1))
      = phi2 i (Wave3D.nbVMinus P.b_cond P.NY (P.NY - 1))) :
    Wave3D.topVal P phi1 psi1 i = Wave3D.topVal P phi2 psi2 i := by
  rw [Wave3D.nbVMinus_last hy] at hmv
  unfold Wave3D.topVal
  cases hbc : P.b_cond
  case dirichlet =>
    rw [hbc] at hph hmh
    rw [Wave3D.nbHPlus_of_ne _ _ (by simp)] at hph
    rw [Wave3D.nbHMinus_of_ne _ _ (by simp)] at hmh
    dsimp only
    rw [hp0, hq0, hph, hmh, hmv]
  case periodic =>
    rw [hbc] at hph hmh hpv
    rw [Wave3D.nbHPlus_periodic] at hph
    rw [Wave3D.nbHMinus_periodic] at hmh
    rw [Wave3D.nbVPlus_last_wrap (by omega) (Or.inl rfl)] at hpv
    dsimp only
    rw [hp0, hq0, hph, hmh, hpv, hmv]
  case absorbing =>
    dsimp only
    rw [hp0, hq0, hmv]
  case vper_habs =>
    rw [hbc] at hph hmh hpv
    rw [Wave3D.nbHPlus_of_ne _ _ (by simp)] at hph
    rw [Wave3D.nbHMinus_of_ne _ _ (by simp)] at hmh
    rw [Wave3D.nbVPlus_last_wrap (by omega) (Or.inr rfl)] at hpv
    dsimp only
    by_cases hi0 : i = 0
    · subst hi0
      rw [if_pos rfl, if_pos rfl]
      have hc1 : clampInc 0 P.NX = 1 := by unfold clampInc; rw [if_neg (by omega)]
      rw [hc1] at hph
      rw [hp0, hq0, hph]
    · rw [if_neg hi0, if_neg hi0]
      rw [hp0, hq0, hph, hmh, hpv, hmv]

theorem Wave3D.bottomVal_congr {K : Type*} [Field K] (P : Wave3D.Params K)
    (phi1 psi1 phi2 psi2 : Buf K) (i : ℕ)
    (hx : 2 ≤ P.NX) (hy : 2 ≤ P.NY) (hi : i < P.NX)
    (hp0 : phi1 i 0 = phi2 i 0) (hq0 : psi1 i 0 = psi2 i 0)
    (hph : phi1 (Wave3D.nbHPlus P.b_cond P.NX i) 0 = phi2 (Wave3D.nbHPlus P.b_cond P.NX i) 0)
    (hmh : phi1 (Wave3D.nbHMinus P.b_cond P.NX i) 0 = phi2 (Wave3D.nbHMinus P.b_cond P.NX i) 0)
    (hpv : phi1 i (Wave3D.nbVPlus P.b_cond P.NY 0) = phi2 i (Wave3D.nbVPlus P.b_cond P.NY 0))
    (hmv : phi1 i (Wave3D.nbVMinus P.b_cond P.NY 0) = phi2 i (Wave3D.nbVMinus P.b_cond P.NY 0)) :
    Wave3D.bottomVal P phi1 psi1 i = Wave3D.bottomVal P phi2 psi2 i := by
  rw [Wave3D.nbVPlus_zero hy] at hpv
  unfold Wave3D.bottomVal
  cases hbc : P.b_cond
  case dirichlet =>
    rw [hbc] at hph hmh
    rw [Wave3D.nbHPlus_of_ne _ _ (by simp)] at hph
    rw [Wave3D.nbHMinus_of_ne _ _ (by simp)] at hmh
    dsimp only
    rw [hp0, hq0, hph, hmh, hpv]
  case periodic =>
    rw [hbc] at hph hmh hmv
    rw [Wave3D.nbHPlus_periodic] at hph
    rw [Wave3D.nbHMinus_periodic] at hmh
    rw [Wave3D.nbVMinus_zero_wrap (by omega) (Or.inl rfl)] at hmv
    dsimp only
    rw [hp0, hq0, hph, hmh, hpv, hmv]
  case absorbing =>
    dsimp only
    rw [hp0, hq0, hpv]
  case vper_habs =>
    rw [hbc] at hph hmh hmv
    rw [Wave3D.nbHPlus_of_ne _ _ (by simp)] at hph
    rw [Wave3D.nbHMinus_of_ne _ _ (by simp)] at hmh
    rw [Wave3D.nbVMinus_zero_wrap (by omega) (Or.inr rfl)] at hmv
    dsimp only
    by_cases hi0 : i = 0
    · subst hi0
      rw [if_pos rfl, if_pos rfl]
      have hc1 : clampInc 0 P.NX = 1 := by unfold clampInc; rw [if_neg (by omega)]
      rw [hc1] at hph
      rw [hp0, hq0, hph]
    · rw [if_neg hi0, if_neg hi0]
      rw [hp0, hq0, hph, hmh, hpv, hmv]

set_option maxHeartbeats 800000 in
theorem Wave3D.evolve_wave_half_locality {K : Type*} [Field K] (P : Wave3D.Params K)
    (phi1 psi1 phi2 psi2 : Buf K) (out1 out2 : Buf K × Buf K) (i j : ℕ)
    (hx : 2 ≤ P.NX) (hy : 2 ≤ P.NY) (hi : i < P.NX) (hj : j < P.NY)
    (hm : P.xy_in i j = true)
    (hp0 : phi1 i j = phi2 i j) (hq0 : psi1 i j = psi2 i j)
    (hph : phi1 (Wave3D.nbHPlus P.b_cond P.NX i) j = phi2 (Wave3D.nbHPlus P.b_cond P.NX i) j)
    (hmh : phi1 (Wave3D.nbHMinus P.b_cond P.NX i) j = phi2 (Wave3D.nbHMinus P.b_cond P.NX i) j)
    (hpv : phi1 i (Wave3D.nbVPlus P.b_cond P.NY j) = phi2 i (Wave3D.nbVPlus P.b_cond P.NY j))
    (hmv : phi1 i (Wave3D.nbVMinus P.b_cond P.NY j) = phi2 i (Wave3D.nbVMinus P.b_cond P.NY j)) :
    (Wave3D.evolve_wave_half P phi1 psi1 out1).1 i j
        = (Wave3D.evolve_wave_half P phi2 psi2 out2).1 i j
      ∧ (Wave3D.evolve_wave_half P phi1 psi1 out1).2 i j
        = (Wave3D.evolve_wave_half P phi2 psi2 out2).2 i j := by
  unfold Wave3D.evolve_wave_half
  by_cases hj0 : j = 0
  · subst hj0
    constructor
    · rw [Wave3D.bottomPass_fst, if_pos ⟨rfl, hi, hm⟩,
        Wave3D.bottomPass_fst, if_pos ⟨rfl, hi, hm⟩]
      exact Wave3D.bottomVal_congr P phi1 psi1 phi2 psi2 i hx hy hi hp0 hq0 hph hmh hpv hmv
    · rw [Wave3D.bottomPass_snd, if_pos ⟨rfl, hi, hm⟩,
        Wave3D.bottomPass_snd, if_pos ⟨rfl, hi, hm⟩]
      exact hp0
  · by_cases hjN : j = P.NY - 1
    · subst hjN
      constructor
      · rw [Wave3D.bottomPass_fst, if_neg (fun hcon => hj0 hcon.1),
          Wave3D.bottomPass_fst, if_neg (fun hcon => hj0 hcon.1),
          Wave3D.topPass_fst, if_pos ⟨rfl, hi, hm⟩,
          Wave3D.topPass_fst, if_pos ⟨rfl, hi, hm⟩]
        exact Wave3D.topVal_congr P phi1 psi1 phi2 psi2 i hx hy hi hp0 hq0 hph hmh hpv hmv
      · rw [Wave3D.bottomPass_snd, if_neg (fun hcon => hj0 hcon.1),
          Wave3D.bottomPass_snd, if_neg (fun hcon => hj0 hcon.1),
          Wave3D.topPass_snd, if_pos ⟨rfl, hi, hm⟩,
          Wave3D.topPass_snd, if_pos ⟨rfl, hi, hm⟩]
        exact hp0
    · have hj1 : 1 ≤ j := by omega
      have hj2 : j < P.NY - 1 := by omega
      by_cases hi0 : i = 0
      · subst hi0
        constructor
        · rw [Wave3D.bottomPass_fst, if_neg (fun hcon => hj0 hcon.1),
            Wave3D.bottomPass_fst, if_neg (fun hcon => hj0 hcon.1),
            Wave3D.topPass_fst, if_neg (fun hcon => hjN hcon.1),
            Wave3D.topPass_fst, if_neg (fun hcon => hjN hcon.1),
            Wave3D.rightPass_fst, if_neg (fun hcon => absurd hcon.1 (by omega)),
            Wave3D.rightPass_fst, if_neg (fun hcon => absurd hcon.1 (by omega)),
            Wave3D.leftPass_fst, if_pos ⟨rfl, hj1, hj2, hm⟩,
            Wave3D.leftPass_fst, if_pos ⟨rfl, hj1, hj2, hm⟩]
          exact Wave3D.leftVal_congr P phi1 psi1 phi2 psi2 j hx hj1 hj2 hp0 hq0 hph hmh hpv hmv
        · rw [Wave3D.bottomPass_snd, if_neg (fun hcon => hj0 hcon.1),
            Wave3D.bottomPass_snd, if_neg (fun hcon => hj0 hcon.1),
            Wave3D.topPass_snd, if_neg (fun hcon => hjN hcon.1),
            Wave3D.topPass_snd, if_neg (fun hcon => hjN hcon.1),
            Wave3D.rightPass_snd, if_neg (fun hcon => absurd hcon.1 (by omega)),
            Wave3D.rightPass_snd, if_neg (fun hcon => absurd hcon.1 (by omega)),
            Wave3D.leftPass_snd, if_pos ⟨rfl, hj1, hj2, hm⟩,
            Wave3D.leftPass_snd, if_pos ⟨rfl, hj1, hj2, hm⟩]
          exact hp0
      · by_cases hiN : i = P.NX - 1
        · subst hiN
          constructor
          · rw [Wave3D.bottomPass_fst, if_neg (fun hcon => hj0 hcon.1),
              Wave3D.bottomPass_fst, if_neg (fun hcon => hj0 hcon.1),
              Wave3D.topPass_fst, if_neg (fun hcon => hjN hcon.1),
              Wave3D.topPass_fst, if_neg (fun hcon => hjN hcon.1),
              Wave3D.rightPass_fst, if_pos ⟨rfl, hj1, hj2, hm⟩,
              Wave3D.rightPass_fst, if_pos ⟨rfl, hj1, hj2, hm⟩]
            exact Wave3D.rightVal_congr P phi1 psi1 phi2 psi2 j hx hj1 hj2 hp0 hq0 hph hmh hpv hmv
          · rw [Wave3D.bottomPass_snd, if_neg (fun hcon => hj0 hcon.1),
              Wave3D.bottomPass_snd, if_neg (fun hcon => hj0 hcon.1),
              Wave3D.topPass_snd, if_neg (fun hcon => hjN hcon.1),
              Wave3D.topPass_snd, if_neg (fun hcon => hjN hcon.1),
              Wave3D.rightPass_snd, if_pos ⟨rfl, hj1, hj2, hm⟩,
              Wave3D.rightPass_snd, if_pos ⟨rfl, hj1, hj2, hm⟩]
            exact hp0
        · have hb1 : 1 ≤ i := by omega
          have hb2 : i < P.NX - 1 := by omega
          constructor
          · rw [Wave3D.bottomPass_fst, if_neg (fun hcon => hj0 hcon.1),
              Wave3D.bottomPass_fst, if_neg (fun hcon => hj0 hcon.1),
              Wave3D.topPass_fst, if_neg (fun hcon => hjN hcon.1),
              Wave3D.topPass_fst, if_neg (fun hcon => hjN hcon.1),
              Wave3D.rightPass_fst, if_neg (fun hcon => hiN hcon.1),
              Wave3D.rightPass_fst, if_neg (fun hcon => hiN hcon.1),
              Wave3D.leftPass_fst, if_neg (fun hcon => hi0 hcon.1),
              Wave3D.leftPass_fst, if_neg (fun hcon => hi0 hcon.1),
              Wave3D.bulkPass_fst, if_pos ⟨hb1, hb2, hj1, hj2, hm⟩,
              Wave3D.bulkPass_fst, if_pos ⟨hb1, hb2, hj1, hj2, hm⟩]
            exact Wave3D.bulkVal_congr P phi1 psi1 phi2 psi2 i j hb1 hb2 hj1 hj2
              hp0 hq0 hph hmh hpv hmv
          · rw [Wave3D.bottomPass_snd, if_neg (fun hcon => hj0 hcon.1),
              Wave3D.bottomPass_snd, if_neg (fun hcon => hj0 hcon.1),
              Wave3D.topPass_snd, if_neg (fun hcon => hjN hcon.1),
              Wave3D.topPass_snd, if_neg (fun hcon => hjN hcon.1),
              Wave3D.rightPass_snd, if_neg (fun hcon => hiN hcon.1),
              Wave3D.rightPass_snd, if_neg (fun hcon => hiN hcon.1),
              Wave3D.leftPass_snd, if_neg (fun hcon => hi0 hcon.1),
              Wave3D.leftPass_snd, if_neg (fun hcon => hi0 hcon.1),
              Wave3D.bulkPass_snd, if_pos ⟨hb1, hb2, hj1, hj2, hm⟩,
              Wave3D.bulkPass_snd, if_pos ⟨hb1, hb2, hj1, hj2, hm⟩]
            exact hp0

/-! Claim C1. -/

/-- Claim C1, amended.  For the buffer-swapping (two-phase) half-step updaters
of src/schrodinger.c and src/wave_3d.c, the output at each in-domain, in-range
cell is a pure function of the input buffers' pre-step values at that cell and
its four policy-determined axis neighbors: two runs whose input buffers agree
on those cells produce the same output at the cell, whatever the prior
contents of the output buffers; no value written during the half-step is ever
read.  (The in-place formulation of src/wave_billiard.c is NOT equivalent to
the two-phase formulation — see the counterexample.) -/
theorem claim1_two_phase_locality {K : Type*} [Field K]
    (NX NY : ℕ) (bc : BCond) (intstep intstep1 : K) (xy_in : ℕ → ℕ → Bool)
    (phi1 psi1 out1 out2 phi2 psi2 out3 out4 : Buf K) (i j : ℕ)
    (P : Wave3D.Params K) (wphi1 wpsi1 wphi2 wpsi2 : Buf K)
    (wout1 wout2 : Buf K × Buf K) (a b : ℕ)
    (hi : i < NX) (hj : j < NY) (hm : xy_in i j = true)
    (hp0 : phi1 i j = phi2 i j) (hq0 : psi1 i j = psi2 i j)
    (hpp : phi1 (Schrodinger.nbPlus bc NX i) j = phi2 (Schrodinger.nbPlus bc NX i) j)
    (hpm : phi1 (Schrodinger.nbMinus bc NX i) j = phi2 (Schrodinger.nbMinus bc NX i) j)
    (hpjp : phi1 i (Schrodinger.nbPlus bc NY j) = phi2 i (Schrodinger.nbPlus bc NY j))
    (hpjm : phi1 i (Schrodinger.nbMinus bc NY j) = phi2 i (Schrodinger.nbMinus bc NY j))
    (hqp : psi1 (Schrodinger.nbPlus bc NX i) j = psi2 (Schrodinger.nbPlus bc NX i) j)
    (hqm : psi1 (Schrodinger.nbMinus bc NX i) j = psi2 (Schrodinger.nbMinus bc NX i) j)
    (hqjp : psi1 i (Schrodinger.nbPlus bc NY j) = psi2 i (Schrodinger.nbPlus bc NY j))
    (hqjm : psi1 i (Schrodinger.nbMinus bc NY j) = psi2 i (Schrodinger.nbMinus bc NY j))
    (hwx : 2 ≤ P.NX) (hwy : 2 ≤ P.NY) (hwa : a < P.NX) (hwb : b < P.NY)
    (hwm : P.xy_in a b = true)
    (hw0 : wphi1 a b = wphi2 a b) (hv0 : wpsi1 a b = wpsi2 a b)
    (hwph : wphi1 (Wave3D.nbHPlus P.b_cond P.NX a) b
      = wphi2 (Wave3D.nbHPlus P.b_cond P.NX a) b)
    (hwmh : wphi1 (Wave3D.nbHMinus P.b_cond P.NX a) b
      = wphi2 (Wave3D.nbHMinus P.b_cond P.NX a) b)
    (hwpv : wphi1 a (Wave3D.nbVPlus P.b_cond P.NY b)
      = wphi2 a (Wave3D.nbVPlus P.b_cond P.NY b))
    (hwmv : wphi1 a (Wave3D.nbVMinus P.b_cond P.NY b)
      = wphi2 a (Wave3D.nbVMinus P.b_cond P.NY b)) :
    (Schrodinger.evolve_wave_half NX NY bc intstep intstep1 xy_in phi1 psi1 out1 out2).1 i j
        = (Schrodinger.evolve_wave_half NX NY bc intstep intstep1 xy_in phi2 psi2 out3 out4).1 i j
      ∧ (Schrodinger.evolve_wave_half NX NY bc intstep intstep1 xy_in phi1 psi1 out1 out2).2 i j
        = (Schrodinger.evolve_wave_half NX NY bc intstep intstep1 xy_in phi2 psi2 out3 out4).2 i j
      ∧ (Wave3D.evolve_wave_half P wphi1 wpsi1 wout1).1 a b
        = (Wave3D.evolve_wave_half P wphi2 wpsi2 wout2).1 a b
      ∧ (Wave3D.evolve_wave_half P wphi1 wpsi1 wout1).2 a b
        = (Wave3D.evolve_wave_half P wphi2 wpsi2 wout2).2 a b := by
  have hcell := Schrodinger.evolveCell_locality NX NY bc intstep intstep1 phi1 psi1 phi2 psi2
    i j hi hj hp0 hq0 hpp hpm hpjp hpjm hqp hqm hqjp hqjm
  have hw := Wave3D.evolve_wave_half_locality P wphi1 wpsi1 wphi2 wpsi2 wout1 wout2 a b
    hwx hwy hwa hwb hwm hw0 hv0 hwph hwmh hwpv hwmv
  refine ⟨?_, ?_, hw.1, hw.2⟩ <;>
    (unfold Schrodinger.evolve_wave_half; dsimp only;
      rw [if_pos ⟨hi, hj, hm⟩, if_pos ⟨hi, hj, hm⟩, hcell])

/-- Witness for C1: for schrodinger.c, a concrete instance on a 3×3 periodic
grid where the two input fields differ at cell `(0,0)` but agree on cell
`(1,1)` and its four neighbors, with output-buffer pairs differing everywhere;
for wave_3d.c, a 2×2 Dirichlet grid where the `phi` inputs differ at `(1,0)`
and the `psi` inputs differ at `(1,1)`, neither of which the update of the
top-edge cell `(0,1)` reads.  The half-step outputs at the probed cells
coincide. -/
theorem claim1_two_phase_locality_witness :
    (Schrodinger.evolve_wave_half 3 3 BCond.periodic (1/2 : ℚ) 0 allInside
        c1wA zeroBufQ zeroBufQ zeroBufQ).1 1 1
      = (Schrodinger.evolve_wave_half 3 3 BCond.periodic (1/2 : ℚ) 0 allInside
        c1wB zeroBufQ qGridA qGridB).1 1 1
    ∧ (Schrodinger.evolve_wave_half 3 3 BCond.periodic (1/2 : ℚ) 0 allInside
        c1wA zeroBufQ zeroBufQ zeroBufQ).2 1 1
      = (Schrodinger.evolve_wave_half 3 3 BCond.periodic (1/2 : ℚ) 0 allInside
        c1wB zeroBufQ qGridA qGridB).2 1 1
    ∧ (Wave3D.evolve_wave_half c10P qGridA qGridB (zeroBufQ, zeroBufQ)).1 0 1
      = (Wave3D.evolve_wave_half c10P w3dPhiB w3dPsiB (qGridA, qGridB)).1 0 1
    ∧ (Wave3D.evolve_wave_half c10P qGridA qGridB (zeroBufQ, zeroBufQ)).2 0 1
      = (Wave3D.evolve_wave_half c10P w3dPhiB w3dPsiB (qGridA, qGridB)).2 0 1 := by
  have e1 : Schrodinger.nbPlus BCond.periodic 3 1 = 2 := by decide
  have e2 : Schrodinger.nbMinus BCond.periodic 3 1 = 0 := by decide
  have f1 : Wave3D.nbHPlus c10P.b_cond c10P.NX 0 = 1 := by decide
  have f2 : Wave3D.nbHMinus c10P.b_cond c10P.NX 0 = 0 := by decide
  have f3 : Wave3D.nbVPlus c10P.b_cond c10P.NY 1 = 1 := by decide
  have f4 : Wave3D.nbVMinus c10P.b_cond c10P.NY 1 = 0 := by decide
  exact claim1_two_phase_locality 3 3 BCond.periodic (1/2) 0 allInside
    c1wA zeroBufQ zeroBufQ zeroBufQ c1wB zeroBufQ qGridA qGridB 1 1
    c10P qGridA qGridB w3dPhiB w3dPsiB (zeroBufQ, zeroBufQ) (qGridA, qGridB) 0 1
    (by norm_num) (by norm_num) rfl
    (by norm_num [c1wA, c1wB]) rfl
    (by rw [e1]; norm_num [c1wA, c1wB])
    (by rw [e2]; norm_num [c1wA, c1wB])
    (by rw [e1]; norm_num [c1wA, c1wB])
    (by rw [e2]; norm_num [c1wA, c1wB])
    rfl rfl rfl rfl
    (by decide) (by decide) (by decide) (by decide) rfl
    (by norm_num [qGridA, w3dPhiB]) (by norm_num [qGridB, w3dPsiB])
    (by rw [f1]; norm_num [qGridA, w3dPhiB])
    (by rw [f2]; norm_num [qGridA, w3dPhiB])
    (by rw [f3]; norm_num [qGridA, w3dPhiB])
    (by rw [f4]; norm_num [qGridA, w3dPhiB])

/-- Counterexample for C1 as stated: on the spec's own 4×4 periodic scenario
(unit impulse at `(2,2)`, squared-Courant `1/4`, no stiffness, no damping),
the in-place `evolve_wave` of src/wave_billiard.c and the two-phase
formulation disagree at cell `(2,3)` — the in-place update of `(2,3)` reads
the value already written at `(2,2)` in the same step. -/
theorem claim1_counterexample :
    (WaveBilliard.evolve_wave 4 4 (1/4 : ℚ) 0 0 allInside impulse22 zeroBufQ).1 2 3
      ≠ (WaveBilliard.evolve_wave_twophase 4 4 (1/4 : ℚ) 0 0 allInside impulse22 zeroBufQ).1 2 3 := by
  have h4 : List.range 4 = [0, 1, 2, 3] := by decide
  have w0 : wrapDec 0 4 = 3 := by decide
  have w1 : wrapDec 1 4 = 0 := by decide
  have w2 : wrapDec 2 4 = 1 := by decide
  have w3 : wrapDec 3 4 = 2 := by decide
  norm_num [WaveBilliard.evolve_wave, WaveBilliard.evolve_wave_twophase, WaveBilliard.evolveCell,
    upd, wrapInc, h4, w0, w1, w2, w3, impulse22, zeroBufQ, allInside]

/-! Claim C2. -/

set_option maxHeartbeats 1000000 in
/-- Claim C2, amended.  On the 4×4 fully-inside periodic grid with
squared-Courant `1/4`, zero stiffness and damping, unit impulse at `(2,2)`:
after one call of the in-place `evolve_wave` of src/wave_billiard.c,
`phi` equals `c2_actual` — `9/8` at `(2,2)`, `1/4` at the two neighbors
visited before `(2,2)`, `19/64` at the two visited after, `1/16` and `19/128`
at second-generation cells — and `psi` equals the pre-step `phi`; the values
the claim states (`1` at `(2,2)`, `1/4` at all four neighbors, `0` elsewhere,
`psi` = pre-step `phi`) are produced by the aliasing-free two-phase step. -/
theorem claim2_impulse_step (i j : ℕ) (hi : i < 4) (hj : j < 4) :
    (WaveBilliard.evolve_wave 4 4 (1/4 : ℚ) 0 0 allInside impulse22 zeroBufQ).1 i j
        = c2_actual i j
      ∧ (WaveBilliard.evolve_wave 4 4 (1/4 : ℚ) 0 0 allInside impulse22 zeroBufQ).2 i j
        = impulse22 i j
      ∧ (WaveBilliard.evolve_wave_twophase 4 4 (1/4 : ℚ) 0 0 allInside impulse22 zeroBufQ).1 i j
        = c2_claimed i j
      ∧ (WaveBilliard.evolve_wave_twophase 4 4 (1/4 : ℚ) 0 0 allInside impulse22 zeroBufQ).2 i j
        = impulse22 i j := by
  have h4 : List.range 4 = [0, 1, 2, 3] := by decide
  have w0 : wrapDec 0 4 = 3 := by decide
  have w1 : wrapDec 1 4 = 0 := by decide
  have w2 : wrapDec 2 4 = 1 := by decide
  have w3 : wrapDec 3 4 = 2 := by decide
  interval_cases i <;> interval_cases j <;>
    norm_num [WaveBilliard.evolve_wave, WaveBilliard.evolve_wave_twophase,
      WaveBilliard.evolveCell, upd, wrapInc, h4, w0, w1, w2, w3,
      impulse22, zeroBufQ, allInside, c2_actual, c2_claimed]

/-- Witness for C2 (amended) at the impulse cell `(2,2)` itself. -/
theorem claim2_impulse_step_witness :
    (2 : ℕ) < 4
      ∧ ((WaveBilliard.evolve_wave 4 4 (1/4 : ℚ) 0 0 allInside impulse22 zeroBufQ).1 2 2
          = c2_actual 2 2
        ∧ (WaveBilliard.evolve_wave 4 4 (1/4 : ℚ) 0 0 allInside impulse22 zeroBufQ).2 2 2
          = impulse22 2 2
        ∧ (WaveBilliard.evolve_wave_twophase 4 4 (1/4 : ℚ) 0 0 allInside impulse22 zeroBufQ).1 2 2
          = c2_claimed 2 2
        ∧ (WaveBilliard.evolve_wave_twophase 4 4 (1/4 : ℚ) 0 0 allInside impulse22 zeroBufQ).2 2 2
          = impulse22 2 2) :=
  ⟨by norm_num, claim2_impulse_step 2 2 (by norm_num) (by norm_num)⟩

/-- Counterexample for C2 as stated: after one `evolve_wave` call of
src/wave_billiard.c on the scenario, `phi(2,2)` is `9/8`, not `1.0`. -/
theorem claim2_counterexample :
    ¬((WaveBilliard.evolve_wave 4 4 (1/4 : ℚ) 0 0 allInside impulse22 zeroBufQ).1 2 2 = 1) := by
  have h4 : List.range 4 = [0, 1, 2, 3] := by decide
  have w0 : wrapDec 0 4 = 3 := by decide
  have w1 : wrapDec 1 4 = 0 := by decide
  have w2 : wrapDec 2 4 = 1 := by decide
  have w3 : wrapDec 3 4 = 2 := by decide
  norm_num [WaveBilliard.evolve_wave, WaveBilliard.evolveCell,
    upd, wrapInc, h4, w0, w1, w2, w3, impulse22, zeroBufQ, allInside]

/-! Claim C3. -/

/-- Claim C3.  For every cell the domain mask marks outside, and for every
number of updater steps, the cell's value in both field arrays is never
changed: for the in-place wave updater of src/wave_billiard.c both `phi` and
`psi` keep their initial values at the outside cell, and for the
double-buffered Schrödinger updater of src/schrodinger.c both primary arrays
keep their initial values at the outside cell. -/
theorem claim3_mask_invariance {K : Type*} [Field K]
    (NX NY NX2 NY2 : ℕ) (c k g intstep intstep1 : K) (bc : BCond)
    (mw ms : ℕ → ℕ → Bool) (a b a2 b2 : ℕ)
    (hw : mw a b = false) (hs : ms a2 b2 = false)
    (stw : Buf K × Buf K) (sts : (Buf K × Buf K) × (Buf K × Buf K)) (n n2 : ℕ) :
    ((WaveBilliard.evolve_wave_iter NX NY c k g mw stw n).1 a b = stw.1 a b
      ∧ (WaveBilliard.evolve_wave_iter NX NY c k g mw stw n).2 a b = stw.2 a b)
    ∧ ((Schrodinger.evolve_wave_iter NX2 NY2 bc intstep intstep1 ms sts n2).1.1 a2 b2
          = sts.1.1 a2 b2
      ∧ (Schrodinger.evolve_wave_iter NX2 NY2 bc intstep intstep1 ms sts n2).1.2 a2 b2
          = sts.1.2 a2 b2) := by
  constructor
  · have h := WaveBilliard.evolve_wave_iter_preserves_outside NX NY c k g mw hw stw n
    exact ⟨congrArg Prod.fst h, congrArg Prod.snd h⟩
  · exact Schrodinger.evolve_wave_iter_outside_cells_fixed NX2 NY2 bc intstep intstep1 ms hs sts n2

/-- Witness for C3: two steps of each updater on a grid whose mask excludes
`(0,0)`; the values there are untouched. -/
theorem claim3_mask_invariance_witness :
    (((WaveBilliard.evolve_wave_iter 2 2 (1/4 : ℚ) 0 0 maskNot00 (qGridA, qGridB) 2).1 0 0
        = (qGridA, qGridB).1 0 0
      ∧ (WaveBilliard.evolve_wave_iter 2 2 (1/4 : ℚ) 0 0 maskNot00 (qGridA, qGridB) 2).2 0 0
        = (qGridA, qGridB).2 0 0)
    ∧ ((Schrodinger.evolve_wave_iter 2 2 BCond.periodic (1/2 : ℚ) 0 maskNot00
          ((qGridA, qGridB), (zeroBufQ, zeroBufQ)) 2).1.1 0 0
        = ((qGridA, qGridB), (zeroBufQ, zeroBufQ)).1.1 0 0
      ∧ (Schrodinger.evolve_wave_iter 2 2 BCond.periodic (1/2 : ℚ) 0 maskNot00
          ((qGridA, qGridB), (zeroBufQ, zeroBufQ)) 2).1.2 0 0
        = ((qGridA, qGridB), (zeroBufQ, zeroBufQ)).1.2 0 0)) :=
  claim3_mask_invariance 2 2 2 2 (1/4) 0 0 (1/2) 0 BCond.periodic
    maskNot00 maskNot00 0 0 0 0 (by decide) (by decide)
    (qGridA, qGridB) ((qGridA, qGridB), (zeroBufQ, zeroBufQ)) 2 2

/-! Claim C4. -/

theorem filter_restrict_eq (NX NY : ℕ) (m : ℕ → ℕ → Bool) :
    (Finset.range NX ×ˢ Finset.range NY).filter
        (fun ij => (m ij.1 ij.2 && decide (1 ≤ ij.1) && decide (1 ≤ ij.2)) = true)
      = (Finset.Ico 1 NX ×ˢ Finset.Ico 1 NY).filter (fun ij => m ij.1 ij.2 = true) := by
  ext ij
  simp only [Finset.mem_filter, Finset.mem_product, Finset.mem_range, Finset.mem_Ico,
    Bool.and_eq_true, decide_eq_true_eq]
  constructor
  · rintro ⟨⟨hx, hy⟩, ⟨hm, h1⟩, h2⟩
    exact ⟨⟨⟨h1, hx⟩, ⟨h2, hy⟩⟩, hm⟩
  · rintro ⟨⟨⟨h1, hx⟩, ⟨h2, hy⟩⟩, hm⟩
    exact ⟨⟨hx, hy⟩, ⟨hm, h1⟩, h2⟩

/-- Claim C4, amended.  Both `compute_variance` functions sum the squared
magnitude only over inside cells with `i ≥ 1` and `j ≥ 1` — the first row
(`j = 0`) and the first column (`i = 0`) are excluded by the loops starting at
1 — and divide by the count of those cells, with the count treated as 1 when
it is zero: each equals the spec's all-inside-cells aggregate evaluated on the
mask restricted to `i ≥ 1 ∧ j ≥ 1`. -/
theorem claim4_variance_skips_first_row_col {K : Type*} [Field K]
    (NX NY : ℕ) (phiW phiS psiS : Buf K) (m : ℕ → ℕ → Bool) :
    WaveBilliard.compute_variance NX NY phiW m
        = WaveBilliard.aggregate_claimed NX NY phiW
            (fun i j => m i j && decide (1 ≤ i) && decide (1 ≤ j))
      ∧ Schrodinger.compute_variance NX NY phiS psiS m
        = Schrodinger.aggregate_claimed NX NY phiS psiS
            (fun i j => m i j && decide (1 ≤ i) && decide (1 ≤ j)) := by
  constructor
  · unfold WaveBilliard.compute_variance WaveBilliard.aggregate_claimed
    rw [filter_restrict_eq NX NY m]
  · unfold Schrodinger.compute_variance Schrodinger.aggregate_claimed
    rw [filter_restrict_eq NX NY m]

/-- Counterexample for C4 as stated: on a fully-inside 2×2 grid with a unit
value at cell `(0,0)`, the code's `compute_variance` returns `0` (the cell is
in the skipped first row and column), while the spec's all-inside-cells
aggregate returns `1/4`. -/
theorem claim4_counterexample :
    WaveBilliard.compute_variance 2 2 impulse00 allInside
      ≠ WaveBilliard.aggregate_claimed 2 2 impulse00 allInside := by
  have hIco : Finset.Ico 1 2 ×ˢ Finset.Ico 1 2 = ({(1, 1)} : Finset (ℕ × ℕ)) := by decide
  have hRan : Finset.range 2 ×ˢ Finset.range 2
      = ({(0, 0), (0, 1), (1, 0), (1, 1)} : Finset (ℕ × ℕ)) := by decide
  unfold WaveBilliard.compute_variance WaveBilliard.aggregate_claimed
  rw [hIco, hRan]
  rw [Finset.filter_true_of_mem (by intro x hx; rfl),
    Finset.filter_true_of_mem (by intro x hx; rfl)]
  dsimp only
  rw [Finset.sum_singleton, Finset.card_singleton,
    show ({(0, 0), (0, 1), (1, 0), (1, 1)} : Finset (ℕ × ℕ)).card = 4 from by decide,
    Finset.sum_insert (by decide), Finset.sum_insert (by decide), Finset.sum_insert (by decide),
    Finset.sum_singleton]
  norm_num [impulse00]

/-! Claim C5. -/

/-- Claim C5, amended.  The Schrödinger initializer `init_coherent_state`
writes the packet only into cells the mask marks inside: every cell whose
mask entry is false holds exactly zero in both components after
initialization.  (The wave initializers `init_wave` and `add_drop_to_wave` of
src/wave_billiard.c write the packet into every cell with no mask test — see
the counterexample.) -/
theorem claim5_coherent_state_masked (g : GridSpec) (NX NY : ℕ)
    (x y px py scalex : ℝ) (pred : ℝ → ℝ → Bool) (i j : ℕ)
    (h : (Schrodinger.init_coherent_state g NX NY x y px py scalex pred).2.2 i j = false) :
    (Schrodinger.init_coherent_state g NX NY x y px py scalex pred).1 i j = 0
      ∧ (Schrodinger.init_coherent_state g NX NY x y px py scalex pred).2.1 i j = 0 := by
  unfold Schrodinger.init_coherent_state at h ⊢
  dsimp only at h ⊢
  constructor <;> simp [h]

/-- Witness for C5 (amended): with an all-outside membership predicate, the
cell `(0,0)` of a 1×1 grid is outside and both components are zero. -/
theorem claim5_coherent_state_masked_witness :
    (Schrodinger.init_coherent_state unitSquare 1 1 0 0 0 0 1 noInside).2.2 0 0 = false
      ∧ ((Schrodinger.init_coherent_state unitSquare 1 1 0 0 0 0 1 noInside).1 0 0 = 0
        ∧ (Schrodinger.init_coherent_state unitSquare 1 1 0 0 0 0 1 noInside).2.1 0 0 = 0) :=
  ⟨rfl, claim5_coherent_state_masked unitSquare 1 1 0 0 0 0 1 noInside 0 0 rfl⟩

/-- Counterexample for C5 as stated: `init_wave` of src/wave_billiard.c
writes the pulse into every cell of the grid, inside or not.  With a drop
centered at the coordinates of cell `(0,0)` and a mask that marks every cell
outside, the outside cell `(0,0)` receives `0.2`, not `0`. -/
theorem claim5_counterexample :
    (WaveBilliard.init_wave unitSquare 1 1 0 0 noInside).2.2 0 0 = false
      ∧ (WaveBilliard.init_wave unitSquare 1 1 0 0 noInside).1 0 0 ≠ 0 := by
  constructor
  · rfl
  · unfold WaveBilliard.init_wave ij_to_xy unitSquare
    dsimp only
    norm_num [Real.sqrt_zero, Real.exp_zero, Real.cos_zero]

/-! Claim C6. -/

theorem renorm_div_count_eq_one (s : Finset (ℕ × ℕ)) (F : ℕ × ℕ → ℝ) (v : ℝ)
    (hv : 0 < v)
    (hvdef : v = (∑ x ∈ s, F x) / (if s.card = 0 then (1 : ℝ) else s.card)) :
    (∑ x ∈ s, F x / v) / (if s.card = 0 then (1 : ℝ) else s.card) = 1 := by
  have hn : s.card ≠ 0 := by
    intro h0
    rw [Finset.card_eq_zero] at h0
    subst h0
    rw [Finset.sum_empty, zero_div] at hvdef
    rw [hvdef] at hv
    exact lt_irrefl 0 hv
  rw [if_neg hn] at hvdef ⊢
  have hnR : ((s.card : ℝ)) ≠ 0 := Nat.cast_ne_zero.mpr hn
  have hvne : v ≠ 0 := ne_of_gt hv
  have hS : (∑ x ∈ s, F x) ≠ 0 := by
    intro h0
    rw [h0, zero_div] at hvdef
    exact hvne hvdef
  rw [← Finset.sum_div]
  rw [hvdef]
  field_simp

/-- Claim C6.  For the complex-field variant: if the aggregate
(`compute_variance`) of a state is positive, then renormalising the state by
that aggregate and recomputing the aggregate yields exactly 1 (in real
arithmetic). -/
theorem claim6_renormalised_aggregate_one (NX NY : ℕ) (phi psi : Buf ℝ)
    (m : ℕ → ℕ → Bool)
    (h : 0 < Schrodinger.compute_variance NX NY phi psi m) :
    Schrodinger.compute_variance NX NY
        (Schrodinger.renormalise_field NX NY phi psi m
          (Schrodinger.compute_variance NX NY phi psi m)).1
        (Schrodinger.renormalise_field NX NY phi psi m
          (Schrodinger.compute_variance NX NY phi psi m)).2 m = 1 := by
  set v := Schrodinger.compute_variance NX NY phi psi m with hvdef
  have hsq : Real.sqrt v * Real.sqrt v = v := Real.mul_self_sqrt (le_of_lt h)
  unfold Schrodinger.compute_variance at hvdef ⊢
  unfold Schrodinger.renormalise_field
  dsimp only at hvdef ⊢
  have hcong :
      (∑ ij ∈ (Finset.Ico 1 NX ×ˢ Finset.Ico 1 NY).filter (fun ij => m ij.1 ij.2 = true),
          ((if 1 ≤ ij.1 ∧ ij.1 < NX ∧ 1 ≤ ij.2 ∧ ij.2 < NY ∧ m ij.1 ij.2 = true then
              phi ij.1 ij.2 / Real.sqrt v else phi ij.1 ij.2) *
            (if 1 ≤ ij.1 ∧ ij.1 < NX ∧ 1 ≤ ij.2 ∧ ij.2 < NY ∧ m ij.1 ij.2 = true then
              phi ij.1 ij.2 / Real.sqrt v else phi ij.1 ij.2) +
            (if 1 ≤ ij.1 ∧ ij.1 < NX ∧ 1 ≤ ij.2 ∧ ij.2 < NY ∧ m ij.1 ij.2 = true then
              psi ij.1 ij.2 / Real.sqrt v else psi ij.1 ij.2) *
            (if 1 ≤ ij.1 ∧ ij.1 < NX ∧ 1 ≤ ij.2 ∧ ij.2 < NY ∧ m ij.1 ij.2 = true then
              psi ij.1 ij.2 / Real.sqrt v else psi ij.1 ij.2)))
        = ∑ ij ∈ (Finset.Ico 1 NX ×ˢ Finset.Ico 1 NY).filter (fun ij => m ij.1 ij.2 = true),
            (phi ij.1 ij.2 * phi ij.1 ij.2 + psi ij.1 ij.2 * psi ij.1 ij.2) / v := by
    refine Finset.sum_congr rfl (fun ij hij => ?_)
    obtain ⟨hprod, hm⟩ := Finset.mem_filter.mp hij
    obtain ⟨h1, h2⟩ := Finset.mem_product.mp hprod
    obtain ⟨h1a, h1b⟩ := Finset.mem_Ico.mp h1
    obtain ⟨h2a, h2b⟩ := Finset.mem_Ico.mp h2
    rw [if_pos ⟨h1a, h1b, h2a, h2b, hm⟩]
    rw [if_pos ⟨h1a, h1b, h2a, h2b, hm⟩]
    rw [div_mul_div_comm, div_mul_div_comm, hsq, div_add_div_same]
  rw [hcong]
  exact renorm_div_count_eq_one _ _ v h hvdef

/-- Witness for C6: a fully-inside 2×2 grid whose single counted cell `(1,1)`
carries `phi = 1`, `psi = 0`; the aggregate is `1 > 0`, and after
renormalisation the aggregate is `1`. -/
theorem claim6_renormalised_aggregate_one_witness :
    0 < Schrodinger.compute_variance 2 2 oneCell11R zeroBufR allInside
      ∧ Schrodinger.compute_variance 2 2
          (Schrodinger.renormalise_field 2 2 oneCell11R zeroBufR allInside
            (Schrodinger.compute_variance 2 2 oneCell11R zeroBufR allInside)).1
          (Schrodinger.renormalise_field 2 2 oneCell11R zeroBufR allInside
            (Schrodinger.compute_variance 2 2 oneCell11R zeroBufR allInside)).2
          allInside = 1 := by
  have hpos : 0 < Schrodinger.compute_variance 2 2 oneCell11R zeroBufR allInside := by
    have hIco : Finset.Ico 1 2 ×ˢ Finset.Ico 1 2 = ({(1, 1)} : Finset (ℕ × ℕ)) := by decide
    unfold Schrodinger.compute_variance
    rw [hIco, Finset.filter_true_of_mem (by intro x hx; rfl)]
    dsimp only
    rw [Finset.sum_singleton, Finset.card_singleton]
    norm_num [oneCell11R, zeroBufR]
  exact ⟨hpos, claim6_renormalised_aggregate_one 2 2 oneCell11R zeroBufR allInside hpos⟩

/-! Claim C9. -/

/-- Claim C9.  `renormalise_field` divides by `stdv = sqrt(variance)` with no
guard against zero; under the precondition that at least one counted inside
cell (`1 ≤ i < NX`, `1 ≤ j < NY`, mask set) has a nonzero component, the
aggregate is strictly positive and the divisor `sqrt(variance)` is nonzero,
so the division-by-zero case is unreachable. -/
theorem claim9_positive_aggregate (NX NY : ℕ) (phi psi : Buf ℝ)
    (m : ℕ → ℕ → Bool) (i j : ℕ)
    (h1 : 1 ≤ i) (h2 : i < NX) (h3 : 1 ≤ j) (h4 : j < NY)
    (hm : m i j = true) (hnz : phi i j ≠ 0 ∨ psi i j ≠ 0) :
    0 < Schrodinger.compute_variance NX NY phi psi m
      ∧ Real.sqrt (Schrodinger.compute_variance NX NY phi psi m) ≠ 0 := by
  have hmem : (i, j) ∈ (Finset.Ico 1 NX ×ˢ Finset.Ico 1 NY).filter
      (fun ij => m ij.1 ij.2 = true) := by
    refine Finset.mem_filter.mpr ⟨Finset.mem_product.mpr ⟨?_, ?_⟩, hm⟩
    · exact Finset.mem_Ico.mpr ⟨h1, h2⟩
    · exact Finset.mem_Ico.mpr ⟨h3, h4⟩
  have hterm : 0 < phi i j * phi i j + psi i j * psi i j := by
    rcases hnz with hp | hp
    · exact add_pos_of_pos_of_nonneg (mul_self_pos.mpr hp) (mul_self_nonneg _)
    · exact add_pos_of_nonneg_of_pos (mul_self_nonneg _) (mul_self_pos.mpr hp)
  have hsum : 0 < ∑ ij ∈ (Finset.Ico 1 NX ×ˢ Finset.Ico 1 NY).filter
      (fun ij => m ij.1 ij.2 = true),
      (phi ij.1 ij.2 * phi ij.1 ij.2 + psi ij.1 ij.2 * psi ij.1 ij.2) :=
    Finset.sum_pos' (fun ij _ => add_nonneg (mul_self_nonneg _) (mul_self_nonneg _))
      ⟨(i, j), hmem, hterm⟩
  have hcard : ((Finset.Ico 1 NX ×ˢ Finset.Ico 1 NY).filter
      (fun ij => m ij.1 ij.2 = true)).card ≠ 0 :=
    Finset.card_ne_zero_of_mem hmem
  have hpos : 0 < Schrodinger.compute_variance NX NY phi psi m := by
    unfold Schrodinger.compute_variance
    dsimp only
    rw [if_neg hcard]
    exact div_pos hsum (by exact_mod_cast Nat.pos_of_ne_zero hcard)
  exact ⟨hpos, ne_of_gt (Real.sqrt_pos.mpr hpos)⟩

/-- Witness for C9: the 2×2 fully-inside grid with `phi(1,1) = 1`. -/
theorem claim9_positive_aggregate_witness :
    0 < Schrodinger.compute_variance 2 2 oneCell11R zeroBufR allInside
      ∧ Real.sqrt (Schrodinger.compute_variance 2 2 oneCell11R zeroBufR allInside) ≠ 0 :=
  claim9_positive_aggregate 2 2 oneCell11R zeroBufR allInside 1 1
    (by norm_num) (by norm_num) (by norm_num) (by norm_num) rfl
    (Or.inl (by norm_num [oneCell11R]))

/-! Claim C7. -/

/-- Claim C7.  Under a non-absorbing policy (Dirichlet or periodic), each
Schrödinger half-step writes `new_phi = phi - intstep * Δpsi` and
`new_psi = psi + intstep * Δphi` at every in-domain cell, where `Δ` is the
discrete 4-neighbor Laplacian of the opposite component (with the policy's
index rule); and one reported tick (`evolve_wave`) is exactly two such
half-steps, the first from the primary buffers into the scratch buffers and
the second from the scratch buffers back into the primary buffers. -/
theorem claim7_leapfrog_half_and_tick {K : Type*} [Field K]
    (NX NY : ℕ) (bc : BCond) (intstep intstep1 : K) (xy_in : ℕ → ℕ → Bool)
    (phi_in psi_in phi_out psi_out phi psi phi_tmp psi_tmp : Buf K) (i j : ℕ)
    (hbc : bc = BCond.dirichlet ∨ bc = BCond.periodic)
    (hi : i < NX) (hj : j < NY) (hm : xy_in i j = true) :
    (Schrodinger.evolve_wave_half NX NY bc intstep intstep1 xy_in
          phi_in psi_in phi_out psi_out).1 i j
        = phi_in i j
            - intstep * discreteLaplacian NX NY (decide (bc = BCond.periodic)) psi_in i j
      ∧ (Schrodinger.evolve_wave_half NX NY bc intstep intstep1 xy_in
          phi_in psi_in phi_out psi_out).2 i j
        = psi_in i j
            + intstep * discreteLaplacian NX NY (decide (bc = BCond.periodic)) phi_in i j
      ∧ Schrodinger.evolve_wave NX NY bc intstep intstep1 xy_in phi psi phi_tmp psi_tmp
        = (Schrodinger.evolve_wave_half NX NY bc intstep intstep1 xy_in
            (Schrodinger.evolve_wave_half NX NY bc intstep intstep1 xy_in
              phi psi phi_tmp psi_tmp).1
            (Schrodinger.evolve_wave_half NX NY bc intstep intstep1 xy_in
              phi psi phi_tmp psi_tmp).2 phi psi,
           Schrodinger.evolve_wave_half NX NY bc intstep intstep1 xy_in
             phi psi phi_tmp psi_tmp) := by
  have hd1 := Schrodinger.delta_eq_discreteLaplacian NX NY bc phi_in i j hbc hi hj
  have hd2 := Schrodinger.delta_eq_discreteLaplacian NX NY bc psi_in i j hbc hi hj
  have hne : bc ≠ BCond.absorbing := by rcases hbc with rfl | rfl <;> simp
  refine ⟨?_, ?_, rfl⟩
  · unfold Schrodinger.evolve_wave_half
    dsimp only
    rw [if_pos ⟨hi, hj, hm⟩]
    unfold Schrodinger.evolveCell
    dsimp only
    rw [if_pos hne, hd2]
  · unfold Schrodinger.evolve_wave_half
    dsimp only
    rw [if_pos ⟨hi, hj, hm⟩]
    unfold Schrodinger.evolveCell
    dsimp only
    rw [if_pos hne, hd1]

/-- Witness for C7 on a concrete 2×2 periodic grid. -/
theorem claim7_leapfrog_half_and_tick_witness :
    (Schrodinger.evolve_wave_half 2 2 BCond.periodic (1/3 : ℚ) 0 allInside
          qGridA qGridB zeroBufQ zeroBufQ).1 0 1
        = qGridA 0 1
            - (1/3 : ℚ) * discreteLaplacian 2 2 (decide (BCond.periodic = BCond.periodic)) qGridB 0 1
      ∧ (Schrodinger.evolve_wave_half 2 2 BCond.periodic (1/3 : ℚ) 0 allInside
          qGridA qGridB zeroBufQ zeroBufQ).2 0 1
        = qGridB 0 1
            + (1/3 : ℚ) * discreteLaplacian 2 2 (decide (BCond.periodic = BCond.periodic)) qGridA 0 1
      ∧ Schrodinger.evolve_wave 2 2 BCond.periodic (1/3 : ℚ) 0 allInside
          qGridA qGridB zeroBufQ zeroBufQ
        = (Schrodinger.evolve_wave_half 2 2 BCond.periodic (1/3 : ℚ) 0 allInside
            (Schrodinger.evolve_wave_half 2 2 BCond.periodic (1/3 : ℚ) 0 allInside
              qGridA qGridB zeroBufQ zeroBufQ).1
            (Schrodinger.evolve_wave_half 2 2 BCond.periodic (1/3 : ℚ) 0 allInside
              qGridA qGridB zeroBufQ zeroBufQ).2 qGridA qGridB,
           Schrodinger.evolve_wave_half 2 2 BCond.periodic (1/3 : ℚ) 0 allInside
             qGridA qGridB zeroBufQ zeroBufQ) :=
  claim7_leapfrog_half_and_tick 2 2 BCond.periodic (1/3) 0 allInside
    qGridA qGridB zeroBufQ zeroBufQ qGridA qGridB zeroBufQ zeroBufQ 0 1
    (Or.inr rfl) (by norm_num) (by norm_num) rfl

/-! Claim C8. -/

theorem clampedDelta_eq_reducedLaplacian {K : Type*} [Field K]
    (NX NY : ℕ) (f : Buf K) (a b : ℕ) (ha : a < NX) (hb : b < NY) :
    clampedDelta NX NY f a b = reducedLaplacian NX NY f a b := by
  unfold clampedDelta reducedLaplacian clampInc clampDec
  have e1 : f (if a + 1 = NX then NX - 1 else a + 1) b
      = (if a + 1 < NX then f (a + 1) b - f a b else 0) + f a b := by
    by_cases hA : a + 1 = NX
    · rw [if_pos hA, if_neg (by omega)]
      have h2 : NX - 1 = a := by omega
      rw [h2]; ring
    · rw [if_neg hA, if_pos (by omega)]; ring
  have e2 : f (if a = 0 then 0 else a - 1) b
      = (if 1 ≤ a then f (a - 1) b - f a b else 0) + f a b := by
    by_cases hA : a = 0
    · subst hA; rw [if_pos rfl, if_neg (by omega)]; ring
    · rw [if_neg hA, if_pos (by omega)]; ring
  have e3 : f a (if b + 1 = NY then NY - 1 else b + 1)
      = (if b + 1 < NY then f a (b + 1) - f a b else 0) + f a b := by
    by_cases hA : b + 1 = NY
    · rw [if_pos hA, if_neg (by omega)]
      have h2 : NY - 1 = b := by omega
      rw [h2]; ring
    · rw [if_neg hA, if_pos (by omega)]; ring
  have e4 : f a (if b = 0 then 0 else b - 1)
      = (if 1 ≤ b then f a (b - 1) - f a b else 0) + f a b := by
    by_cases hA : b = 0
    · subst hA; rw [if_pos rfl, if_neg (by omega)]; ring
    · rw [if_neg hA, if_pos (by omega)]; ring
  rw [e1, e2, e3, e4]
  ring

set_option maxHeartbeats 800000 in
/-- Claim C8.  Under the Dirichlet-reflecting policy of src/wave_3d.c, every
boundary cell's update equals the interior recurrence applied with the
clamped-index 4-neighbor Laplacian (out-of-range neighbor replaced by the
nearest in-range cell, as src/schrodinger.c computes it), and that
clamped-index formula equals the 3-neighbor (2-neighbor at corners) reduced
Laplacian of the spec: the two formulations produce identical values. -/
theorem claim8_dirichlet_edge_equivalence {K : Type*} [Field K]
    (P : Wave3D.Params K) (phi_in psi_in : Buf K) (out0 : Buf K × Buf K) (i j : ℕ)
    (hbc : P.b_cond = BCond.dirichlet) (hx : 2 ≤ P.NX) (hy : 2 ≤ P.NY)
    (hi : i < P.NX) (hj : j < P.NY)
    (hedge : i = 0 ∨ i = P.NX - 1 ∨ j = 0 ∨ j = P.NY - 1)
    (hm : P.xy_in i j = true) :
    (∀ a b, a < P.NX → b < P.NY →
        clampedDelta P.NX P.NY phi_in a b = reducedLaplacian P.NX P.NY phi_in a b)
      ∧ (Wave3D.evolve_wave_half P phi_in psi_in out0).1 i j
        = Wave3D.interiorUpdate P i j (phi_in i j) (psi_in i j)
            (clampedDelta P.NX P.NY phi_in i j)
      ∧ (Wave3D.evolve_wave_half P phi_in psi_in out0).2 i j = phi_in i j := by
  refine ⟨fun a b ha hb => clampedDelta_eq_reducedLaplacian P.NX P.NY phi_in a b ha hb, ?_, ?_⟩
  all_goals unfold Wave3D.evolve_wave_half
  · by_cases hj0 : j = 0
    · subst hj0
      rw [Wave3D.bottomPass_fst, if_pos ⟨rfl, hi, hm⟩]
      have hc1 : clampInc 0 P.NY = 1 := by unfold clampInc; rw [if_neg (by omega)]
      have hdel : clampedDelta P.NX P.NY phi_in i 0
          = phi_in (clampInc i P.NX) 0 + phi_in (clampDec i) 0 + phi_in i 1
              - 3 * phi_in i 0 := by
        unfold clampedDelta
        rw [hc1, show clampDec 0 = 0 from rfl]
        ring
      rw [hdel]
      simp only [Wave3D.bottomVal, hbc]
    · by_cases hjN : j = P.NY - 1
      · subst hjN
        rw [Wave3D.bottomPass_fst, if_neg (fun hcon => hj0 hcon.1)]
        rw [Wave3D.topPass_fst, if_pos ⟨rfl, hi, hm⟩]
        have hc1 : clampInc (P.NY - 1) P.NY = P.NY - 1 := by
          unfold clampInc; rw [if_pos (by omega)]
        have hc2 : clampDec (P.NY - 1) = P.NY - 2 := by
          unfold clampDec; rw [if_neg (by omega)]; omega
        have hdel : clampedDelta P.NX P.NY phi_in i (P.NY - 1)
            = phi_in (clampInc i P.NX) (P.NY - 1) + phi_in (clampDec i) (P.NY - 1)
                + phi_in i (P.NY - 2) - 3 * phi_in i (P.NY - 1) := by
          unfold clampedDelta
          rw [hc1, hc2]
          ring
        rw [hdel]
        simp only [Wave3D.topVal, hbc]
      · have hij : i = 0 ∨ i = P.NX - 1 := by
          rcases hedge with h | h | h | h
          · exact Or.inl h
          · exact Or.inr h
          · exact absurd h hj0
          · exact absurd h hjN
        have hj1 : 1 ≤ j := by omega
        have hj2 : j < P.NY - 1 := by omega
        have hcjp : clampInc j P.NY = j + 1 := by unfold clampInc; rw [if_neg (by omega)]
        have hcjm : clampDec j = j - 1 := by unfold clampDec; rw [if_neg (by omega)]
        rcases hij with h0 | hN
        · subst h0
          rw [Wave3D.bottomPass_fst, if_neg (fun hcon => hj0 hcon.1)]
          rw [Wave3D.topPass_fst, if_neg (fun hcon => hjN hcon.1)]
          rw [Wave3D.rightPass_fst, if_neg (fun hcon => by omega)]
          rw [Wave3D.leftPass_fst, if_pos ⟨rfl, hj1, hj2, hm⟩]
          have hc1 : clampInc 0 P.NX = 1 := by unfold clampInc; rw [if_neg (by omega)]
          have hdel : clampedDelta P.NX P.NY phi_in 0 j
              = phi_in 1 j + phi_in 0 (j + 1) + phi_in 0 (j - 1) - 3 * phi_in 0 j := by
            unfold clampedDelta
            rw [hc1, show clampDec 0 = 0 from rfl, hcjp, hcjm]
            ring
          rw [hdel]
          simp only [Wave3D.leftVal, hbc]
        · subst hN
          rw [Wave3D.bottomPass_fst, if_neg (fun hcon => hj0 hcon.1)]
          rw [Wave3D.topPass_fst, if_neg (fun hcon => hjN hcon.1)]
          rw [Wave3D.rightPass_fst, if_pos ⟨rfl, hj1, hj2, hm⟩]
          have hc1 : clampInc (P.NX - 1) P.NX = P.NX - 1 := by
            unfold clampInc; rw [if_pos (by omega)]
          have hc2 : clampDec (P.NX - 1) = P.NX - 2 := by
            unfold clampDec; rw [if_neg (by omega)]; omega
          have hdel : clampedDelta P.NX P.NY phi_in (P.NX - 1) j
              = phi_in (P.NX - 2) j + phi_in (P.NX - 1) (j + 1) + phi_in (P.NX - 1) (j - 1)
                  - 3 * phi_in (P.NX - 1) j := by
            unfold clampedDelta
            rw [hc1, hc2, hcjp, hcjm]
            ring
          rw [hdel]
          simp only [Wave3D.rightVal, hbc]
  · by_cases hj0 : j = 0
    · subst hj0
      rw [Wave3D.bottomPass_snd, if_pos ⟨rfl, hi, hm⟩]
    · by_cases hjN : j = P.NY - 1
      · subst hjN
        rw [Wave3D.bottomPass_snd, if_neg (fun hcon => hj0 hcon.1)]
        rw [Wave3D.topPass_snd, if_pos ⟨rfl, hi, hm⟩]
      · have hij : i = 0 ∨ i = P.NX - 1 := by
          rcases hedge with h | h | h | h
          · exact Or.inl h
          · exact Or.inr h
          · exact absurd h hj0
          · exact absurd h hjN
        have hj1 : 1 ≤ j := by omega
        have hj2 : j < P.NY - 1 := by omega
        rcases hij with h0 | hN
        · subst h0
          rw [Wave3D.bottomPass_snd, if_neg (fun hcon => hj0 hcon.1)]
          rw [Wave3D.topPass_snd, if_neg (fun hcon => hjN hcon.1)]
          rw [Wave3D.rightPass_snd, if_neg (fun hcon => by omega)]
          rw [Wave3D.leftPass_snd, if_pos ⟨rfl, hj1, hj2, hm⟩]
        · subst hN
          rw [Wave3D.bottomPass_snd, if_neg (fun hcon => hj0 hcon.1)]
          rw [Wave3D.topPass_snd, if_neg (fun hcon => hjN hcon.1)]
          rw [Wave3D.rightPass_snd, if_pos ⟨rfl, hj1, hj2, hm⟩]

/-- Witness for C8: concrete 2×2 Dirichlet configuration, edge cell `(0,1)`. -/
theorem claim8_dirichlet_edge_equivalence_witness :
    (∀ a b, a < c10P.NX → b < c10P.NY →
        clampedDelta c10P.NX c10P.NY qGridA a b = reducedLaplacian c10P.NX c10P.NY qGridA a b)
      ∧ (Wave3D.evolve_wave_half c10P qGridA qGridB (zeroBufQ, zeroBufQ)).1 0 1
        = Wave3D.interiorUpdate c10P 0 1 (qGridA 0 1) (qGridB 0 1)
            (clampedDelta c10P.NX c10P.NY qGridA 0 1)
      ∧ (Wave3D.evolve_wave_half c10P qGridA qGridB (zeroBufQ, zeroBufQ)).2 0 1 = qGridA 0 1 :=
  claim8_dirichlet_edge_equivalence c10P qGridA qGridB (zeroBufQ, zeroBufQ) 0 1
    rfl (by norm_num [c10P]) (by norm_num [c10P]) (by norm_num [c10P]) (by norm_num [c10P])
    (Or.inl rfl) rfl

/-! Claim C10. -/

theorem if_if_comm {c d : Prop} [Decidable c] [Decidable d] {α : Type*}
    (x y z : α) (h : ¬(c ∧ d)) :
    (if c then x else if d then y else z) = (if d then y else if c then x else z) := by
  by_cases hc : c
  · rw [if_pos hc, if_neg (fun hd => h ⟨hc, hd⟩), if_pos hc]
  · rw [if_neg hc]
    by_cases hd : d
    · rw [if_pos hd, if_pos hd]
    · rw [if_neg hd, if_neg hd, if_neg hc]

set_option maxHeartbeats 800000 in
/-- Claim C10.  In the 3D-variant half-step (any boundary policy), with a
grid of at least 2×2: the left and right boundary passes never write cells in
the bottom row (`j = 0`) or top row (`j = NY-1`), so each corner is written by
exactly one boundary pass — the bottom pass for the two `j = 0` corners and
the top pass for the two `j = NY-1` corners: the half-step's final corner
values equal that single pass's values.  Moreover the four edge passes write
pairwise disjoint cells and read only the input buffers, so they pairwise
commute: the corner results are independent of the order in which the four
edge passes execute. -/
theorem claim10_corner_single_writer {K : Type*} [Field K]
    (P : Wave3D.Params K) (phi_in psi_in : Buf K) (out : Buf K × Buf K)
    (hx : 2 ≤ P.NX) (hy : 2 ≤ P.NY) :
    ((∀ a, (Wave3D.leftPass P phi_in psi_in out).1 a 0 = out.1 a 0
        ∧ (Wave3D.leftPass P phi_in psi_in out).2 a 0 = out.2 a 0
        ∧ (Wave3D.leftPass P phi_in psi_in out).1 a (P.NY - 1) = out.1 a (P.NY - 1)
        ∧ (Wave3D.leftPass P phi_in psi_in out).2 a (P.NY - 1) = out.2 a (P.NY - 1)
        ∧ (Wave3D.rightPass P phi_in psi_in out).1 a 0 = out.1 a 0
        ∧ (Wave3D.rightPass P phi_in psi_in out).2 a 0 = out.2 a 0
        ∧ (Wave3D.rightPass P phi_in psi_in out).1 a (P.NY - 1) = out.1 a (P.NY - 1)
        ∧ (Wave3D.rightPass P phi_in psi_in out).2 a (P.NY - 1) = out.2 a (P.NY - 1))
      ∧ ((Wave3D.evolve_wave_half P phi_in psi_in out).1 0 0
            = (Wave3D.bottomPass P phi_in psi_in out).1 0 0
        ∧ (Wave3D.evolve_wave_half P phi_in psi_in out).2 0 0
            = (Wave3D.bottomPass P phi_in psi_in out).2 0 0
        ∧ (Wave3D.evolve_wave_half P phi_in psi_in out).1 (P.NX - 1) 0
            = (Wave3D.bottomPass P phi_in psi_in out).1 (P.NX - 1) 0
        ∧ (Wave3D.evolve_wave_half P phi_in psi_in out).2 (P.NX - 1) 0
            = (Wave3D.bottomPass P phi_in psi_in out).2 (P.NX - 1) 0
        ∧ (Wave3D.evolve_wave_half P phi_in psi_in out).1 0 (P.NY - 1)
            = (Wave3D.topPass P phi_in psi_in out).1 0 (P.NY - 1)
        ∧ (Wave3D.evolve_wave_half P phi_in psi_in out).2 0 (P.NY - 1)
            = (Wave3D.topPass P phi_in psi_in out).2 0 (P.NY - 1)
        ∧ (Wave3D.evolve_wave_half P phi_in psi_in out).1 (P.NX - 1) (P.NY - 1)
            = (Wave3D.topPass P phi_in psi_in out).1 (P.NX - 1) (P.NY - 1)
        ∧ (Wave3D.evolve_wave_half P phi_in psi_in out).2 (P.NX - 1) (P.NY - 1)
            = (Wave3D.topPass P phi_in psi_in out).2 (P.NX - 1) (P.NY - 1)))
      ∧ (Wave3D.leftPass P phi_in psi_in (Wave3D.rightPass P phi_in psi_in out)
            = Wave3D.rightPass P phi_in psi_in (Wave3D.leftPass P phi_in psi_in out)
        ∧ Wave3D.leftPass P phi_in psi_in (Wave3D.topPass P phi_in psi_in out)
            = Wave3D.topPass P phi_in psi_in (Wave3D.leftPass P phi_in psi_in out)
        ∧ Wave3D.leftPass P phi_in psi_in (Wave3D.bottomPass P phi_in psi_in out)
            = Wave3D.bottomPass P phi_in psi_in (Wave3D.leftPass P phi_in psi_in out)
        ∧ Wave3D.rightPass P phi_in psi_in (Wave3D.topPass P phi_in psi_in out)
            = Wave3D.topPass P phi_in psi_in (Wave3D.rightPass P phi_in psi_in out)
        ∧ Wave3D.rightPass P phi_in psi_in (Wave3D.bottomPass P phi_in psi_in out)
            = Wave3D.bottomPass P phi_in psi_in (Wave3D.rightPass P phi_in psi_in out)
        ∧ Wave3D.topPass P phi_in psi_in (Wave3D.bottomPass P phi_in psi_in out)
            = Wave3D.bottomPass P phi_in psi_in (Wave3D.topPass P phi_in psi_in out)) := by
  refine ⟨⟨?_, ?_, ?_, ?_, ?_, ?_, ?_, ?_, ?_⟩, ?_, ?_, ?_, ?_, ?_, ?_⟩
  rotate_left 9
  · -- commutation: left / right
    refine Prod.ext ?_ ?_
    · funext a b
      rw [Wave3D.leftPass_fst, Wave3D.rightPass_fst, Wave3D.rightPass_fst, Wave3D.leftPass_fst]
      exact if_if_comm _ _ _ (fun ⟨⟨h1, _⟩, ⟨h2, _⟩⟩ => by omega)
    · funext a b
      rw [Wave3D.leftPass_snd, Wave3D.rightPass_snd, Wave3D.rightPass_snd, Wave3D.leftPass_snd]
      exact if_if_comm _ _ _ (fun ⟨⟨h1, _⟩, ⟨h2, _⟩⟩ => by omega)
  · -- commutation: left / top
    refine Prod.ext ?_ ?_
    · funext a b
      rw [Wave3D.leftPass_fst, Wave3D.topPass_fst, Wave3D.topPass_fst, Wave3D.leftPass_fst]
      exact if_if_comm _ _ _ (fun ⟨⟨_, _, h1, _⟩, ⟨h2, _⟩⟩ => by omega)
    · funext a b
      rw [Wave3D.leftPass_snd, Wave3D.topPass_snd, Wave3D.topPass_snd, Wave3D.leftPass_snd]
      exact if_if_comm _ _ _ (fun ⟨⟨_, _, h1, _⟩, ⟨h2, _⟩⟩ => by omega)
  · -- commutation: left / bottom
    refine Prod.ext ?_ ?_
    · funext a b
      rw [Wave3D.leftPass_fst, Wave3D.bottomPass_fst, Wave3D.bottomPass_fst, Wave3D.leftPass_fst]
      exact if_if_comm _ _ _ (fun ⟨⟨_, h1, _⟩, ⟨h2, _⟩⟩ => by omega)
    · funext a b
      rw [Wave3D.leftPass_snd, Wave3D.bottomPass_snd, Wave3D.bottomPass_snd, Wave3D.leftPass_snd]
      exact if_if_comm _ _ _ (fun ⟨⟨_, h1, _⟩, ⟨h2, _⟩⟩ => by omega)
  · -- commutation: right / top
    refine Prod.ext ?_ ?_
    · funext a b
      rw [Wave3D.rightPass_fst, Wave3D.topPass_fst, Wave3D.topPass_fst, Wave3D.rightPass_fst]
      exact if_if_comm _ _ _ (fun ⟨⟨_, _, h1, _⟩, ⟨h2, _⟩⟩ => by omega)
    · funext a b
      rw [Wave3D.rightPass_snd, Wave3D.topPass_snd, Wave3D.topPass_snd, Wave3D.rightPass_snd]
      exact if_if_comm _ _ _ (fun ⟨⟨_, _, h1, _⟩, ⟨h2, _⟩⟩ => by omega)
  · -- commutation: right / bottom
    refine Prod.ext ?_ ?_
    · funext a b
      rw [Wave3D.rightPass_fst, Wave3D.bottomPass_fst, Wave3D.bottomPass_fst, Wave3D.rightPass_fst]
      exact if_if_comm _ _ _ (fun ⟨⟨_, h1, _⟩, ⟨h2, _⟩⟩ => by omega)
    · funext a b
      rw [Wave3D.rightPass_snd, Wave3D.bottomPass_snd, Wave3D.bottomPass_snd, Wave3D.rightPass_snd]
      exact if_if_comm _ _ _ (fun ⟨⟨_, h1, _⟩, ⟨h2, _⟩⟩ => by omega)
  · -- commutation: top / bottom
    refine Prod.ext ?_ ?_
    · funext a b
      rw [Wave3D.topPass_fst, Wave3D.bottomPass_fst, Wave3D.bottomPass_fst, Wave3D.topPass_fst]
      exact if_if_comm _ _ _ (fun ⟨⟨h1, _⟩, ⟨h2, _⟩⟩ => by omega)
    · funext a b
      rw [Wave3D.topPass_snd, Wave3D.bottomPass_snd, Wave3D.bottomPass_snd, Wave3D.topPass_snd]
      exact if_if_comm _ _ _ (fun ⟨⟨h1, _⟩, ⟨h2, _⟩⟩ => by omega)
  · -- left/right passes never write rows 0 and NY-1
    intro a
    refine ⟨?_, ?_, ?_, ?_, ?_, ?_, ?_, ?_⟩
    · rw [Wave3D.leftPass_fst, if_neg (fun hcon => absurd hcon.2.1 (by omega))]
    · rw [Wave3D.leftPass_snd, if_neg (fun hcon => absurd hcon.2.1 (by omega))]
    · rw [Wave3D.leftPass_fst, if_neg (fun hcon => absurd hcon.2.2.1 (by omega))]
    · rw [Wave3D.leftPass_snd, if_neg (fun hcon => absurd hcon.2.2.1 (by omega))]
    · rw [Wave3D.rightPass_fst, if_neg (fun hcon => absurd hcon.2.1 (by omega))]
    · rw [Wave3D.rightPass_snd, if_neg (fun hcon => absurd hcon.2.1 (by omega))]
    · rw [Wave3D.rightPass_fst, if_neg (fun hcon => absurd hcon.2.2.1 (by omega))]
    · rw [Wave3D.rightPass_snd, if_neg (fun hcon => absurd hcon.2.2.1 (by omega))]
  all_goals unfold Wave3D.evolve_wave_half
  · -- corner (0, 0), phi
    rw [Wave3D.bottomPass_fst, Wave3D.bottomPass_fst]
    by_cases hC : ((0 : ℕ) = 0 ∧ 0 < P.NX ∧ P.xy_in 0 0 = true)
    · rw [if_pos hC, if_pos hC]
    · rw [if_neg hC, if_neg hC,
        Wave3D.topPass_fst, if_neg (fun hcon => absurd hcon.1 (by omega)),
        Wave3D.rightPass_fst, if_neg (fun hcon => absurd hcon.1 (by omega)),
        Wave3D.leftPass_fst, if_neg (fun hcon => absurd hcon.2.1 (by omega)),
        Wave3D.bulkPass_fst, if_neg (fun hcon => absurd hcon.1 (by omega))]
  · -- corner (0, 0), psi
    rw [Wave3D.bottomPass_snd, Wave3D.bottomPass_snd]
    by_cases hC : ((0 : ℕ) = 0 ∧ 0 < P.NX ∧ P.xy_in 0 0 = true)
    · rw [if_pos hC, if_pos hC]
    · rw [if_neg hC, if_neg hC,
        Wave3D.topPass_snd, if_neg (fun hcon => absurd hcon.1 (by omega)),
        Wave3D.rightPass_snd, if_neg (fun hcon => absurd hcon.1 (by omega)),
        Wave3D.leftPass_snd, if_neg (fun hcon => absurd hcon.2.1 (by omega)),
        Wave3D.bulkPass_snd, if_neg (fun hcon => absurd hcon.1 (by omega))]
  · -- corner (NX-1, 0), phi
    rw [Wave3D.bottomPass_fst, Wave3D.bottomPass_fst]
    by_cases hC : ((0 : ℕ) = 0 ∧ P.NX - 1 < P.NX ∧ P.xy_in (P.NX - 1) 0 = true)
    · rw [if_pos hC, if_pos hC]
    · rw [if_neg hC, if_neg hC,
        Wave3D.topPass_fst, if_neg (fun hcon => absurd hcon.1 (by omega)),
        Wave3D.rightPass_fst, if_neg (fun hcon => absurd hcon.2.1 (by omega)),
        Wave3D.leftPass_fst, if_neg (fun hcon => absurd hcon.2.1 (by omega)),
        Wave3D.bulkPass_fst, if_neg (fun hcon => absurd hcon.2.2.1 (by omega))]
  · -- corner (NX-1, 0), psi
    rw [Wave3D.bottomPass_snd, Wave3D.bottomPass_snd]
    by_cases hC : ((0 : ℕ) = 0 ∧ P.NX - 1 < P.NX ∧ P.xy_in (P.NX - 1) 0 = true)
    · rw [if_pos hC, if_pos hC]
    · rw [if_neg hC, if_neg hC,
        Wave3D.topPass_snd, if_neg (fun hcon => absurd hcon.1 (by omega)),
        Wave3D.rightPass_snd, if_neg (fun hcon => absurd hcon.2.1 (by omega)),
        Wave3D.leftPass_snd, if_neg (fun hcon => absurd hcon.2.1 (by omega)),
        Wave3D.bulkPass_snd, if_neg (fun hcon => absurd hcon.2.2.1 (by omega))]
  · -- corner (0, NY-1), phi
    rw [Wave3D.bottomPass_fst, if_neg (fun hcon => absurd hcon.1 (by omega)),
      Wave3D.topPass_fst, Wave3D.topPass_fst]
    by_cases hC : (P.NY - 1 = P.NY - 1 ∧ (0 : ℕ) < P.NX ∧ P.xy_in 0 (P.NY - 1) = true)
    · rw [if_pos hC, if_pos hC]
    · rw [if_neg hC, if_neg hC,
        Wave3D.rightPass_fst, if_neg (fun hcon => absurd hcon.1 (by omega)),
        Wave3D.leftPass_fst, if_neg (fun hcon => absurd hcon.2.2.1 (by omega)),
        Wave3D.bulkPass_fst, if_neg (fun hcon => absurd hcon.1 (by omega))]
  · -- corner (0, NY-1), psi
    rw [Wave3D.bottomPass_snd, if_neg (fun hcon => absurd hcon.1 (by omega)),
      Wave3D.topPass_snd, Wave3D.topPass_snd]
    by_cases hC : (P.NY - 1 = P.NY - 1 ∧ (0 : ℕ) < P.NX ∧ P.xy_in 0 (P.NY - 1) = true)
    · rw [if_pos hC, if_pos hC]
    · rw [if_neg hC, if_neg hC,
        Wave3D.rightPass_snd, if_neg (fun hcon => absurd hcon.1 (by omega)),
        Wave3D.leftPass_snd, if_neg (fun hcon => absurd hcon.2.2.1 (by omega)),
        Wave3D.bulkPass_snd, if_neg (fun hcon => absurd hcon.1 (by omega))]
  · -- corner (NX-1, NY-1), phi
    rw [Wave3D.bottomPass_fst, if_neg (fun hcon => absurd hcon.1 (by omega)),
      Wave3D.topPass_fst, Wave3D.topPass_fst]
    by_cases hC : (P.NY - 1 = P.NY - 1 ∧ P.NX - 1 < P.NX ∧ P.xy_in (P.NX - 1) (P.NY - 1) = true)
    · rw [if_pos hC, if_pos hC]
    · rw [if_neg hC, if_neg hC,
        Wave3D.rightPass_fst, if_neg (fun hcon => absurd hcon.2.2.1 (by omega)),
        Wave3D.leftPass_fst, if_neg (fun hcon => absurd hcon.2.2.1 (by omega)),
        Wave3D.bulkPass_fst, if_neg (fun hcon => absurd hcon.2.2.2.1 (by omega))]
  · -- corner (NX-1, NY-1), psi
    rw [Wave3D.bottomPass_snd, if_neg (fun hcon => absurd hcon.1 (by omega)),
      Wave3D.topPass_snd, Wave3D.topPass_snd]
    by_cases hC : (P.NY - 1 = P.NY - 1 ∧ P.NX - 1 < P.NX ∧ P.xy_in (P.NX - 1) (P.NY - 1) = true)
    · rw [if_pos hC, if_pos hC]
    · rw [if_neg hC, if_neg hC,
        Wave3D.rightPass_snd, if_neg (fun hcon => absurd hcon.2.2.1 (by omega)),
        Wave3D.leftPass_snd, if_neg (fun hcon => absurd hcon.2.2.1 (by omega)),
        Wave3D.bulkPass_snd, if_neg (fun hcon => absurd hcon.2.2.2.1 (by omega))]

/-- Witness for C10: concrete 2×2 Dirichlet configuration; the half-step's
bottom-left corner value comes from the bottom pass alone. -/
theorem claim10_corner_single_writer_witness :
    2 ≤ c10P.NX ∧ 2 ≤ c10P.NY
      ∧ (Wave3D.evolve_wave_half c10P qGridA qGridB (zeroBufQ, zeroBufQ)).1 0 0
        = (Wave3D.bottomPass c10P qGridA qGridB (zeroBufQ, zeroBufQ)).1 0 0 :=
  ⟨by norm_num [c10P], by norm_num [c10P],
    ((claim10_corner_single_writer c10P qGridA qGridB (zeroBufQ, zeroBufQ)
        (by norm_num [c10P]) (by norm_num [c10P])).1.2).1⟩
